import Mathlib

/-!
Shallow embedding of the Bounty-X backend (src/backend) for verification.

Amounts (SQLite REAL columns holding XRP values) are modelled as exact
integers `Int`; the claims under study are additive balance/pool identities,
for which `Int` is the exact-arithmetic abstraction of the float column.
Statuses are the literal strings used by the code ("open", "accepted",
"claimed", "cancelled").  External collaborators (the XRPL ledger and the
GitHub PR fetch) are modelled as explicit environment records supplying the
outcome of each external call; the pure decision logic applied to those
outcomes is translated from the source.
-/

deriving instance DecidableEq for Except

namespace BountyX

abbrev Amount := Int

/-! String search helpers mirroring the Python `in` operator and the
`re.search` uses in `utils/github_utils.py`.  All regex patterns there are
literal strings optionally followed by a word boundary. -/

/-- Character-wise test for the word-character class of `\b` (alphanumeric or underscore). -/
def isWordChar (c : Char) : Bool := c.isAlphanum || c == '_'

/-- Does `pat` match at the head of `s` (case-sensitive, plain literal)? -/
def matchLit : List Char → List Char → Bool
  | [], _ => true
  | _ :: _, [] => false
  | p :: ps, c :: cs => (p == c) && matchLit ps cs

/-- Does `pat` occur anywhere in `s`?  Models the Python `in` operator on strings. -/
def searchLit (pat : List Char) : List Char → Bool
  | [] => matchLit pat []
  | c :: cs => matchLit pat (c :: cs) || searchLit pat cs

/-- Python `pat in s` for strings. -/
def strContains (s pat : String) : Bool := searchLit pat.data s.data

/-- Does `pat` match at the head of `s`, case-insensitively, with the
character following the match (if any) failing the word-character test —
i.e. the literal pattern followed by a `\b` boundary, under `re.IGNORECASE`? -/
def matchWordEndCI : List Char → List Char → Bool
  | [], [] => true
  | [], c :: _ => !isWordChar c
  | _ :: _, [] => false
  | p :: ps, c :: cs => (p.toLower == c.toLower) && matchWordEndCI ps cs

/-- `re.search` of a literal pattern followed by `\b`, with `re.IGNORECASE`. -/
def searchWordEndCI (pat : List Char) : List Char → Bool
  | [] => matchWordEndCI pat []
  | c :: cs => matchWordEndCI pat (c :: cs) || searchWordEndCI pat cs

/-- Case-insensitive word-boundary-terminated search on `String`s. -/
def searchPatternCI (pat s : String) : Bool := searchWordEndCI pat.data s.data

/-! Model of `utils/github_utils.py`. -/

/-- The issue reference patterns of `verify_merge_request_contains_issue`
(each searched with a trailing `\b` and `re.IGNORECASE`). -/
def issuePatterns (issueNumber : String) : List String :=
  ["bounty-x" ++ issueNumber,
   "#" ++ issueNumber,
   "closes #" ++ issueNumber,
   "fixes #" ++ issueNumber,
   "resolves #" ++ issueNumber,
   "close #" ++ issueNumber,
   "fix #" ++ issueNumber,
   "resolve #" ++ issueNumber]

/-- Does the PR title or body reference the issue via any of the patterns? -/
def issue_found_in (title body issueNumber : String) : Bool :=
  (issuePatterns issueNumber).any
    (fun p => searchPatternCI p title || searchPatternCI p body)

/-- The data the GitHub API fetch of a merge request yields: whether the HTTP
request returned 200, the PR title and body, and whether the PR is merged
(the code tests `merged or merge_commit_sha`). -/
structure PrData where
  httpOk : Bool
  title : String
  body : String
  merged : Bool
deriving Repr, DecidableEq

/-- Model of `github_utils.verify_merge_request_contains_issue`: the pure
decision logic applied to the fetched PR data.  An empty secret key is falsy
in Python, so the secret check is skipped for it. -/
def verify_merge_request_contains_issue (pr : PrData) (issueNumber : String)
    (developerSecretKey : Option String) : Bool :=
  if !pr.httpOk then false
  else if !issue_found_in pr.title pr.body issueNumber then false
  else if !pr.merged then false
  else
    match developerSecretKey with
    | some k =>
        if k == "" then true
        else strContains pr.title k || strContains pr.body k
    | none => true

/-! Model of `github_utils.extract_issue_number_from_url`: the regex
`github\.com/[^/]+/[^/]+/issues/(\d+)` searched anywhere in the URL. -/

/-- Strip a literal off the head of a character list, or fail. -/
def stripLit : List Char → List Char → Option (List Char)
  | [], s => some s
  | _ :: _, [] => none
  | p :: ps, c :: cs => if p == c then stripLit ps cs else none

/-- Consume `[^/]+/`: a nonempty run of non-slash characters followed by a slash. -/
def takeSeg (s : List Char) : Option (List Char) :=
  let run := s.takeWhile (fun c => c != '/')
  if run.isEmpty then none
  else
    match s.drop run.length with
    | '/' :: rest => some rest
    | _ => none

/-- Try to match the issue-URL pattern starting at this position. -/
def matchIssueAt (s : List Char) : Option String := do
  let s1 ← stripLit "github.com/".data s
  let s2 ← takeSeg s1
  let s3 ← takeSeg s2
  let s4 ← stripLit "issues/".data s3
  let ds := s4.takeWhile Char.isDigit
  if ds.isEmpty then none else some (String.mk ds)

/-- `re.search` over all start positions. -/
def searchIssue : List Char → Option String
  | [] => none
  | c :: cs =>
    match matchIssueAt (c :: cs) with
    | some n => some n
    | none => searchIssue cs

/-- Model of `github_utils.extract_issue_number_from_url`. -/
def extract_issue_number_from_url (url : String) : Option String :=
  searchIssue url.data

/-! Data model, mirroring the three tables created by `db.init_database`. -/

/-- A row of the `users` table. -/
structure User where
  id : Nat
  username : String
  xrpAddress : String
  xrpSeed : Option String
  bountiesCreated : Int
  bountiesAccepted : Int
  totalXrpFunded : Amount
  totalXrpEarned : Amount
  currentXrpBalance : Amount
deriving Repr, DecidableEq

/-- A row of the `bounties` table. -/
structure Bounty where
  id : Nat
  funderId : Nat
  bountyName : String
  description : String
  githubIssueUrl : String
  funderAddress : String
  developerAddress : Option String
  amount : Amount
  escrowId : Option String
  escrowSequence : Option Nat
  escrowSecret : Option String
  escrowFulfillment : Option String
  escrowCondition : Option String
  timeLimitSeconds : Nat
  developerSecretKey : Option String
  status : String
deriving Repr, DecidableEq

/-- A row of the `bounty_contributions` table.  The id is an `Int` because
the legacy acceptance path synthesizes an in-memory contribution with id -1. -/
structure Contribution where
  id : Int
  bountyId : Nat
  contributorId : Nat
  contributorAddress : String
  amount : Amount
  escrowId : Option String
  escrowSequence : Option Nat
deriving Repr, DecidableEq

/-- The whole SQLite database, with the AUTOINCREMENT counters made explicit. -/
structure DB where
  users : List User
  bounties : List Bounty
  contributions : List Contribution
  nextBountyId : Nat
  nextContributionId : Int
deriving Repr, DecidableEq

/-- A FastAPI `HTTPException`: status code plus detail message. -/
structure ApiError where
  statusCode : Nat
  detail : String
deriving Repr, DecidableEq

/-- `SELECT ... FROM users WHERE id = ?` (first matching row). -/
def findUser (db : DB) (userId : Nat) : Option User :=
  db.users.find? (fun u => u.id == userId)

/-- `SELECT ... FROM bounties WHERE id = ?` (first matching row). -/
def findBounty (db : DB) (bountyId : Nat) : Option Bounty :=
  db.bounties.find? (fun b => b.id == bountyId)

/-- `UPDATE users SET ... WHERE id = ?`. -/
def updateUsers (us : List User) (userId : Nat) (f : User → User) : List User :=
  us.map (fun u => if u.id == userId then f u else u)

/-- `UPDATE users SET ... WHERE xrp_address = ?`. -/
def updateUsersByAddress (us : List User) (addr : String) (f : User → User) : List User :=
  us.map (fun u => if u.xrpAddress == addr then f u else u)

/-- `UPDATE bounties SET ... WHERE id = ?`. -/
def updateBounties (bs : List Bounty) (bountyId : Nat) (f : Bounty → Bounty) : List Bounty :=
  bs.map (fun b => if b.id == bountyId then f b else b)

/-- `UPDATE bounty_contributions SET ... WHERE id = ?`. -/
def updateContributions (cs : List Contribution) (contributionId : Int)
    (f : Contribution → Contribution) : List Contribution :=
  cs.map (fun c => if c.id == contributionId then f c else c)

/-- Model of `db.get_contributions_by_bounty` (rows are kept in id order). -/
def contributionsByBounty (db : DB) (bountyId : Nat) : List Contribution :=
  db.contributions.filter (fun c => c.bountyId == bountyId)

/-- Sum of the `amount` column over a list of contribution rows. -/
def sumAmounts (cs : List Contribution) : Amount :=
  (cs.map (fun c => c.amount)).sum

/-- Sum of `current_xrp_balance` over a list of user rows. -/
def totalBalance (us : List User) : Amount :=
  (us.map (fun u => u.currentXrpBalance)).sum

namespace Db

/-- Model of `db.create_bounty`: validates the funder's balance, inserts the
bounty in status "open", inserts the seed contribution for the creator, and
bumps the funder's created/funded counters — all in one transaction. -/
def create_bounty (db : DB) (funderId : Nat) (bountyName description githubIssueUrl
    funderAddress : String) (amount : Amount) (timeLimitSeconds : Nat) :
    Except String (DB × Nat) :=
  match findUser db funderId with
  | none => .error "User not found"
  | some u =>
    if u.currentXrpBalance < amount then
      .error "Insufficient balance"
    else
      let bountyId := db.nextBountyId
      let b : Bounty :=
        { id := bountyId, funderId := funderId, bountyName := bountyName,
          description := description, githubIssueUrl := githubIssueUrl,
          funderAddress := funderAddress, developerAddress := none, amount := amount,
          escrowId := none, escrowSequence := none, escrowSecret := none,
          escrowFulfillment := none, escrowCondition := none,
          timeLimitSeconds := timeLimitSeconds, developerSecretKey := none,
          status := "open" }
      let c : Contribution :=
        { id := db.nextContributionId, bountyId := bountyId, contributorId := funderId,
          contributorAddress := funderAddress, amount := amount,
          escrowId := none, escrowSequence := none }
      let users := updateUsers db.users funderId (fun u =>
        { u with bountiesCreated := u.bountiesCreated + 1,
                 totalXrpFunded := u.totalXrpFunded + amount })
      .ok ({ db with users := users,
                     bounties := db.bounties ++ [b],
                     contributions := db.contributions ++ [c],
                     nextBountyId := bountyId + 1,
                     nextContributionId := db.nextContributionId + 1 }, bountyId)

/-- Model of `db.add_contribution`: validates the bounty is open and the
contributor's pledge, inserts the contribution row, adds the amount to the
bounty's pooled `amount`, and bumps the contributor's funded counter.
No wallet balance is deducted (that happens at acceptance). -/
def add_contribution (db : DB) (bountyId contributorId : Nat) (amount : Amount) :
    Except String (DB × Int) :=
  match findBounty db bountyId with
  | none => .error "Bounty not found"
  | some b =>
    if b.status != "open" then .error "Can only boost an open bounty"
    else
      match findUser db contributorId with
      | none => .error "Contributor not found"
      | some u =>
        if amount ≤ 0 then .error "Contribution amount must be positive"
        else if u.currentXrpBalance < amount then
          .error "Insufficient balance to pledge this amount"
        else
          let contributionId := db.nextContributionId
          let c : Contribution :=
            { id := contributionId, bountyId := bountyId, contributorId := contributorId,
              contributorAddress := u.xrpAddress, amount := amount,
              escrowId := none, escrowSequence := none }
          let bounties := updateBounties db.bounties bountyId (fun b =>
            { b with amount := b.amount + amount })
          let users := updateUsers db.users contributorId (fun u =>
            { u with totalXrpFunded := u.totalXrpFunded + amount })
          .ok ({ db with bounties := bounties, users := users,
                         contributions := db.contributions ++ [c],
                         nextContributionId := contributionId + 1 }, contributionId)

/-- One entry of the `contribution_escrows` list passed to `accept_bounty_multi`. -/
structure ContributionEscrow where
  contributionId : Int
  escrowId : String
  escrowSequence : Nat
deriving Repr, DecidableEq

/-- One entry of the `balance_deductions` list passed to `accept_bounty_multi`. -/
structure BalanceDeduction where
  userId : Nat
  amount : Amount
deriving Repr, DecidableEq

/-- Model of `db.accept_bounty_multi`: records the acceptance metadata on the
bounty, writes each contribution's escrow id and sequence, deducts each
balance deduction from the matching user row, and bumps the developer's
accepted counter — all in one transaction, always succeeding. -/
def accept_bounty_multi (db : DB) (bountyId : Nat) (developerAddress : String)
    (firstEscrowId : Option String) (firstEscrowSequence : Option Nat)
    (developerSecretKey escrowCondition escrowFulfillment escrowSecret : String)
    (contributionEscrows : List ContributionEscrow)
    (balanceDeductions : List BalanceDeduction) : DB :=
  let bounties := updateBounties db.bounties bountyId (fun b =>
    { b with developerAddress := some developerAddress, escrowId := firstEscrowId,
             escrowSequence := firstEscrowSequence, escrowSecret := some escrowSecret,
             escrowFulfillment := some escrowFulfillment,
             escrowCondition := some escrowCondition,
             developerSecretKey := some developerSecretKey, status := "accepted" })
  let contributions := contributionEscrows.foldl (fun cs e =>
    updateContributions cs e.contributionId (fun c =>
      { c with escrowId := some e.escrowId, escrowSequence := some e.escrowSequence }))
    db.contributions
  let users := balanceDeductions.foldl (fun us d =>
    updateUsers us d.userId (fun u =>
      { u with currentXrpBalance := u.currentXrpBalance - d.amount })) db.users
  let users := updateUsersByAddress users developerAddress (fun u =>
    { u with bountiesAccepted := u.bountiesAccepted + 1 })
  { db with bounties := bounties, contributions := contributions, users := users }

/-- A serializable bounty dict as produced by `db._map_bounty_row`: the escrow
cryptographic materials and the developer secret key are hidden, and the
`escrow_secret` column is not part of the dict at all. -/
structure BountyView where
  id : Nat
  funderId : Nat
  bountyName : String
  description : String
  githubIssueUrl : String
  funderAddress : String
  developerAddress : Option String
  amount : Amount
  escrowId : Option String
  escrowSequence : Option Nat
  escrowCondition : Option String
  escrowFulfillment : Option String
  developerSecretKey : Option String
  status : String
deriving Repr, DecidableEq

/-- Model of `db._map_bounty_row`. -/
def map_bounty_row (b : Bounty) : BountyView :=
  { id := b.id, funderId := b.funderId, bountyName := b.bountyName,
    description := b.description, githubIssueUrl := b.githubIssueUrl,
    funderAddress := b.funderAddress, developerAddress := b.developerAddress,
    amount := b.amount, escrowId := b.escrowId, escrowSequence := b.escrowSequence,
    escrowCondition := none, escrowFulfillment := none,
    developerSecretKey := none, status := b.status }

/-- Model of `db.get_bounty_by_id` (public, serialized view). -/
def get_bounty_by_id (db : DB) (bountyId : Nat) : Option BountyView :=
  (findBounty db bountyId).map map_bounty_row

/-- Model of `db.get_all_bounties`. -/
def get_all_bounties (db : DB) : List BountyView :=
  db.bounties.map map_bounty_row

/-- Model of `db.get_bounties_by_status`. -/
def get_bounties_by_status (db : DB) (status : String) : List BountyView :=
  (db.bounties.filter (fun b => b.status == status)).map map_bounty_row

/-- Model of `db.get_bounties_by_funder`. -/
def get_bounties_by_funder (db : DB) (funderId : Nat) : List BountyView :=
  (db.bounties.filter (fun b => b.funderId == funderId)).map map_bounty_row

/-- Model of `db.get_developer_secret_key`: `None` when the row is missing or
the stored key is NULL or empty (Python truthiness). -/
def get_developer_secret_key (db : DB) (bountyId : Nat) : Option String :=
  match findBounty db bountyId with
  | none => none
  | some b =>
    match b.developerSecretKey with
    | none => none
    | some k => if k == "" then none else some k

/-- Model of `db.claim_bounty`: sets the status to "claimed" and, when a
developer address is recorded (and truthy), adds the bounty's full `amount`
to that user's `total_xrp_earned`.  No balance is credited here. -/
def claim_bounty (db : DB) (bountyId : Nat) : Except String DB :=
  match findBounty db bountyId with
  | none => .error "Bounty not found"
  | some b =>
    let bounties := updateBounties db.bounties bountyId (fun b =>
      { b with status := "claimed" })
    let users :=
      match b.developerAddress with
      | some addr =>
        if addr == "" then db.users
        else updateUsersByAddress db.users addr (fun u =>
          { u with totalXrpEarned := u.totalXrpEarned + b.amount })
      | none => db.users
    .ok { db with bounties := bounties, users := users }

/-- Model of `db.cancel_bounty`: only legal while "open"; sets the status to
"cancelled", reverts the funder's funded total by the full pooled amount and
the created counter by one, and deletes the bounty's contribution rows.  The
returned Bool mirrors the Python `cursor.rowcount > 0` after the contribution
DELETE. -/
def cancel_bounty (db : DB) (bountyId : Nat) : Except String (DB × Bool) :=
  match findBounty db bountyId with
  | none => .error "Bounty not found"
  | some b =>
    if b.status != "open" then .error "Can only cancel open bounties"
    else
      let bounties := updateBounties db.bounties bountyId (fun b =>
        { b with status := "cancelled" })
      let users := updateUsers db.users b.funderId (fun u =>
        { u with totalXrpFunded := u.totalXrpFunded - b.amount,
                 bountiesCreated := u.bountiesCreated - 1 })
      let remaining := db.contributions.filter (fun c => c.bountyId != bountyId)
      let deleted := db.contributions.length - remaining.length
      .ok ({ db with bounties := bounties, users := users,
                     contributions := remaining }, deleted > 0)

/-- Model of `db.delete_bounty`: if the bounty is still "open" it credits the
funder's balance and reverts the funded/created counters, then deletes the
bounty row. -/
def delete_bounty (db : DB) (bountyId : Nat) : Except String DB :=
  match findBounty db bountyId with
  | none => .error "Bounty not found"
  | some b =>
    let users :=
      if b.status == "open" then
        updateUsers db.users b.funderId (fun u =>
          { u with currentXrpBalance := u.currentXrpBalance + b.amount,
                   totalXrpFunded := u.totalXrpFunded - b.amount,
                   bountiesCreated := u.bountiesCreated - 1 })
      else db.users
    .ok { db with users := users,
                  bounties := db.bounties.filter (fun x => x.id != bountyId) }

end Db

/-! The API layer of `main.py`.  Endpoints are modelled as functions from the
database and the outcomes of external calls (XRPL, GitHub) to a post-state
plus a result.  Each `db.py` call is one SQLite transaction: a raised
`DatabaseError` rolls it back, so errors leave the state of that call
unchanged; an endpoint may however commit one transaction and then fail. -/

/-- Result of a successful `xrpl_utils.create_conditional_escrow` call:
the transaction hash and the escrow's sequence number. -/
structure EscrowResult where
  hash : String
  sequence : Nat
deriving Repr, DecidableEq

/-- Environment for `accept_bounty`: the outcome of each external XRPL call
and the generated random materials.  `createEscrow k` is the result of the
k-th `create_conditional_escrow` call (an `error` models a raised exception
with that message). -/
structure AcceptEnv where
  validateOk : String → Amount → Bool
  createEscrow : Nat → Except String EscrowResult
  conditionHex : String
  fulfillmentHex : String
  preimageHex : String
  developerSecretKey : String

/-- Outcome of the accept endpoint: the post-state, the HTTP result (the
developer secret key on success), and the escrows actually created on the
external ledger during the call (in creation order). -/
structure AcceptOutcome where
  db : DB
  result : Except ApiError String
  createdEscrows : List Db.ContributionEscrow
deriving Repr, DecidableEq

/-- The per-contribution validation loop of `main.accept_bounty` (lines
308-320): each contributor must exist, have an XRP seed, have sufficient
balance, and pass the XRPL account validation; the first failure aborts. -/
def validateContributions (db : DB) (env : AcceptEnv) :
    List Contribution → Except ApiError (List (Contribution × User))
  | [] => .ok []
  | c :: rest =>
    match findUser db c.contributorId with
    | none => .error ⟨404, "Contributor " ++ toString c.contributorId ++ " not found"⟩
    | some u =>
      match u.xrpSeed with
      | none => .error ⟨400, "Contributor " ++ u.username ++ " has no XRP seed configured"⟩
      | some seed =>
        if seed == "" then
          .error ⟨400, "Contributor " ++ u.username ++ " has no XRP seed configured"⟩
        else if u.currentXrpBalance < c.amount then
          .error ⟨400, "Contributor " ++ u.username ++ " has insufficient balance for escrow"⟩
        else if !env.validateOk seed c.amount then
          .error ⟨400, "Contributor " ++ u.username ++ ": XRPL account validation failed"⟩
        else
          match validateContributions db env rest with
          | .error e => .error e
          | .ok ps => .ok ((c, u) :: ps)

/-- The error classification of a failed escrow creation in `main.accept_bounty`. -/
def classifyEscrowError (username msg : String) : ApiError :=
  if strContains msg "Insufficient" then
    ⟨400, username ++ ": Insufficient XRP to create escrow"⟩
  else if strContains msg "No permission" then
    ⟨400, username ++ ": Account permission error"⟩
  else
    ⟨500, "Escrow creation failed for " ++ username ++ ": " ++ msg⟩

/-- Intermediate state of the escrow creation loop: escrows issued so far,
the pending balance deductions, and the first failure if any. -/
structure EscrowLoopResult where
  issued : List Db.ContributionEscrow
  deductions : List Db.BalanceDeduction
  failure : Option ApiError
deriving Repr

/-- The escrow creation loop of `main.accept_bounty` (lines 336-365): one
`create_conditional_escrow` per contribution, in order; a failure raises,
stopping the loop with the escrows issued so far left standing. -/
def escrowLoop (env : AcceptEnv) : List (Contribution × User) → Nat → EscrowLoopResult
  | [], _ => ⟨[], [], none⟩
  | (c, u) :: rest, k =>
    match env.createEscrow k with
    | .error msg => ⟨[], [], some (classifyEscrowError u.username msg)⟩
    | .ok esc =>
      let r := escrowLoop env rest (k + 1)
      ⟨⟨c.id, esc.hash, esc.sequence⟩ :: r.issued,
       ⟨u.id, c.amount⟩ :: r.deductions, r.failure⟩

/-- The cumulative effect on one contribution row of the per-escrow updates
performed by `accept_bounty_multi` (used to characterize the update fold). -/
def applyEscrows (es : List Db.ContributionEscrow) (c : Contribution) : Contribution :=
  es.foldl (fun c e =>
    if c.id == e.contributionId then
      { c with escrowId := some e.escrowId, escrowSequence := some e.escrowSequence }
    else c) c

namespace Api

/-- Model of the `POST /bounties/` endpoint (`main.create_bounty`). -/
def create_bounty (db : DB) (funderId : Nat) (bountyName description githubIssueUrl :
    String) (amount : Amount) (timeLimitSeconds : Nat) : DB × Except ApiError Nat :=
  match findUser db funderId with
  | none => (db, .error ⟨404, "User not found"⟩)
  | some u =>
    if u.currentXrpBalance < amount then
      (db, .error ⟨400, "Insufficient balance"⟩)
    else
      match Db.create_bounty db funderId bountyName description githubIssueUrl
          u.xrpAddress amount timeLimitSeconds with
      | .error m => (db, .error ⟨500, "Failed to create bounty: " ++ m⟩)
      | .ok (db1, bountyId) => (db1, .ok bountyId)

/-- Model of the `POST /bounties/{id}/boost` endpoint (`main.boost_bounty`). -/
def boost_bounty (db : DB) (bountyId contributorId : Nat) (amount : Amount) :
    DB × Except ApiError Int :=
  match Db.get_bounty_by_id db bountyId with
  | none => (db, .error ⟨404, "Bounty not found"⟩)
  | some bv =>
    if bv.status != "open" then
      (db, .error ⟨400, "Can only boost an open bounty"⟩)
    else if contributorId == bv.funderId then
      (db, .error ⟨400, "Creator cannot boost their own bounty"⟩)
    else if amount ≤ 0 then
      (db, .error ⟨400, "Amount must be positive"⟩)
    else
      match findUser db contributorId with
      | none => (db, .error ⟨404, "User not found"⟩)
      | some u =>
        if u.currentXrpBalance < amount then
          (db, .error ⟨400, "Insufficient balance to pledge this amount"⟩)
        else
          match Db.add_contribution db bountyId contributorId amount with
          | .error m => (db, .error ⟨500, "Failed to boost bounty: " ++ m⟩)
          | .ok (db1, contributionId) => (db1, .ok contributionId)

/-- The contribution list used by `main.accept_bounty`: the stored rows, or,
when there are none, the synthesized legacy single-funder contribution
(lines 293-306). -/
def legacyOrRows (db : DB) (bountyId : Nat) (b : Bounty) :
    Except ApiError (List Contribution) :=
  match contributionsByBounty db bountyId with
  | [] =>
    match findUser db b.funderId with
    | none => .error ⟨404, "User not found"⟩
    | some fu =>
      .ok [{ id := -1, bountyId := bountyId, contributorId := fu.id,
             contributorAddress := fu.xrpAddress, amount := b.amount,
             escrowId := none, escrowSequence := none }]
  | r :: rs => .ok (r :: rs)

/-- Model of the `POST /bounties/{id}/accept` endpoint (`main.accept_bounty`):
status gate, legacy single-funder contribution synthesis when no contribution
rows exist, per-contributor validation before any external call, then one
conditional escrow per contribution, and finally the single
`accept_bounty_multi` transaction. -/
def accept_bounty (db : DB) (bountyId : Nat) (developerAddress : String)
    (env : AcceptEnv) : AcceptOutcome :=
  match findBounty db bountyId with
  | none => ⟨db, .error ⟨404, "Bounty not found"⟩, []⟩
  | some b =>
    if b.status != "open" then ⟨db, .error ⟨400, "Bounty is not open"⟩, []⟩
    else
      match legacyOrRows db bountyId b with
      | .error e => ⟨db, .error e, []⟩
      | .ok contributions =>
        match validateContributions db env contributions with
        | .error e => ⟨db, .error e, []⟩
        | .ok pairs =>
          match escrowLoop env pairs 0 with
          | ⟨issued, _, some e⟩ => ⟨db, .error e, issued⟩
          | ⟨issued, deductions, none⟩ =>
            ⟨Db.accept_bounty_multi db bountyId developerAddress
               (issued.head?.map (fun e => e.escrowId))
               (issued.head?.map (fun e => e.escrowSequence))
               env.developerSecretKey env.conditionHex env.fulfillmentHex
               env.preimageHex issued deductions,
             .ok env.developerSecretKey, issued⟩

/-- One external `finish_conditional_escrow` call: the escrow owner's address,
the escrow's sequence, and the seed used to sign the finish. -/
structure FinishCall where
  ownerAddress : String
  offerSequence : Nat
  finisherSeed : String
deriving Repr, DecidableEq

/-- Environment for `claim_bounty`: the fetched PR data.  The escrow finish
calls need no environment outcome: both call sites of
`finish_conditional_escrow` omit its required `condition_hex` parameter, so
every attempted call raises `TypeError` before any external interaction. -/
structure ClaimEnv where
  pr : PrData

/-- Outcome of the claim endpoint: post-state, HTTP result, and the external
finish calls performed (always empty: every attempted finish raises
`TypeError` at the call site, before the external call is made). -/
structure ClaimOutcome where
  db : DB
  result : Except ApiError Unit
  finishCalls : List FinishCall
deriving Repr, DecidableEq

/-- The error mapping of a failed escrow finish in `main.claim_bounty`. -/
def mapFinishError (msg : String) : ApiError :=
  if strContains msg "tecNO_PERMISSION" || strContains msg "No permission" then
    ⟨400, "Escrow cannot be finished at this time. Verify the fulfillment and try again later."⟩
  else
    ⟨500, "Failed to fulfill time-based escrow: " ++ msg⟩

/-- The `TypeError` message Python raises at both `finish_conditional_escrow`
call sites (`main.py` lines 437 and 449): the call omits the function's fifth
required parameter `condition_hex`, so the call itself fails before the
function body (and any external XRPL interaction) runs. -/
def finishTypeError : String :=
  "finish_conditional_escrow() missing 1 required positional argument: " ++
    "\x27condition_hex\x27"

/-- The per-contribution finish loop of `main.claim_bounty` (lines 431-443):
contributions without a truthy escrow sequence, or whose contributor is
missing or has no truthy seed, are skipped.  This predicate decides whether
any contribution reaches the `finish_conditional_escrow` call — which then
always raises `TypeError` (missing `condition_hex`). -/
def finishAttempt (db : DB) : List Contribution → Bool
  | [] => false
  | c :: rest =>
    match c.escrowSequence with
    | none => finishAttempt db rest
    | some seq =>
      if seq == 0 then finishAttempt db rest
      else
        match findUser db c.contributorId with
        | none => finishAttempt db rest
        | some u =>
          match u.xrpSeed with
          | none => finishAttempt db rest
          | some seed =>
            if seed == "" then finishAttempt db rest
            else true

/-- Model of the `POST /bounties/{id}/claim` endpoint (`main.claim_bounty`):
status gate, issue number extraction, stored developer key lookup, PR
verification, fulfillment lookup, then the finish calls (per contribution,
or the legacy single escrow recorded on the bounty) and the final
`db.claim_bounty` transaction. -/
def claim_bounty (db : DB) (bountyId : Nat) (mergeRequestUrl : String)
    (env : ClaimEnv) : ClaimOutcome :=
  match Db.get_bounty_by_id db bountyId with
  | none => ⟨db, .error ⟨404, "Bounty not found"⟩, []⟩
  | some bv =>
    if bv.status != "accepted" then
      ⟨db, .error ⟨400, "Bounty is not available for claiming"⟩, []⟩
    else
      match extract_issue_number_from_url bv.githubIssueUrl with
      | none => ⟨db, .error ⟨400, "Invalid GitHub issue URL"⟩, []⟩
      | some issueNumber =>
        match Db.get_developer_secret_key db bountyId with
        | none => ⟨db, .error ⟨400, "No developer secret key found for this bounty"⟩, []⟩
        | some storedKey =>
          if !verify_merge_request_contains_issue env.pr issueNumber (some storedKey) then
            ⟨db, .error ⟨400, "Merge request must contain both the issue number reference and the developer secret key"⟩, []⟩
          else
            match findBounty db bountyId with
            | none => ⟨db, .error ⟨400, "No escrow fulfillment available"⟩, []⟩
            | some internal =>
              match internal.escrowFulfillment with
              | none => ⟨db, .error ⟨400, "No escrow fulfillment available"⟩, []⟩
              | some ff =>
                if ff == "" then
                  ⟨db, .error ⟨400, "No escrow fulfillment available"⟩, []⟩
                else
                  match contributionsByBounty db bountyId with
                  | [] =>
                    match findUser db bv.funderId with
                    | none => ⟨db, .error ⟨404, "Funder not found"⟩, []⟩
                    | some _ =>
                      ⟨db, .error (mapFinishError finishTypeError), []⟩
                  | r :: rs =>
                    if finishAttempt db (r :: rs) then
                      ⟨db, .error (mapFinishError finishTypeError), []⟩
                    else
                      match Db.claim_bounty db bountyId with
                      | .error m => ⟨db, .error (mapFinishError m), []⟩
                      | .ok db1 => ⟨db1, .ok (), []⟩

/-- Model of the `POST /bounties/{id}/cancel` endpoint (`main.cancel_bounty`):
the cancel transaction followed by the delete transaction.  Note the two are
separate commits: a committed cancel survives even if the endpoint then errors. -/
def cancel_bounty (db : DB) (bountyId : Nat) : DB × Except ApiError Unit :=
  match Db.cancel_bounty db bountyId with
  | .error m => (db, .error ⟨500, "Failed to cancel bounty: " ++ m⟩)
  | .ok (db1, success) =>
    if !success then (db1, .error ⟨404, "Bounty not found"⟩)
    else
      match Db.delete_bounty db1 bountyId with
      | .error m => (db1, .error ⟨500, "Failed to cancel bounty: " ++ m⟩)
      | .ok db2 => (db2, .ok ())

/-- Model of the `GET /bounties/{id}/developer-secret` endpoint
(`main.get_bounty_developer_secret`): the stored key is only released when
the calling user's XRP address equals the bounty's developer address. -/
def get_bounty_developer_secret (db : DB) (bountyId userId : Nat) :
    Except ApiError String :=
  match findBounty db bountyId with
  | none => .error ⟨404, "Bounty not found"⟩
  | some b =>
    match b.developerAddress with
    | none => .error ⟨400, "No developer assigned for this bounty"⟩
    | some devAddr =>
      if devAddr == "" then .error ⟨400, "No developer assigned for this bounty"⟩
      else
        match findUser db userId with
        | none => .error ⟨404, "User not found"⟩
        | some u =>
          if u.xrpAddress != devAddr then
            .error ⟨403, "Forbidden: Not the assigned developer"⟩
          else
            match Db.get_developer_secret_key db bountyId with
            | none => .error ⟨404, "Developer secret key not found"⟩
            | some k => .ok k

end Api

/-! Invariants of the data model. -/

/-- Well-formedness of the database: row ids are unique and the AUTOINCREMENT
counter bounds every bounty id and every contribution's bounty reference. -/
def WF (db : DB) : Prop :=
  (db.bounties.map (fun b => b.id)).Nodup ∧
  (db.users.map (fun u => u.id)).Nodup ∧
  (∀ b ∈ db.bounties, b.id < db.nextBountyId) ∧
  (∀ c ∈ db.contributions, c.bountyId < db.nextBountyId)

/-- The pooled-amount invariant: every bounty's stored `amount` equals the
sum of the amounts of its live contribution rows. -/
def pooledInv (db : DB) : Prop :=
  ∀ b ∈ db.bounties, b.amount = sumAmounts (contributionsByBounty db b.id)

/-! Shared example fixtures used by witnesses and counterexamples. -/

/-- Example funder. -/
def exAlice : User := ⟨1, "alice", "rALICE", some "sALICE", 0, 0, 0, 0, 500⟩

/-- Example booster. -/
def exBob : User := ⟨2, "bob", "rBOB", some "sBOB", 0, 0, 0, 0, 200⟩

/-- Example developer (worker). -/
def exCarol : User := ⟨3, "carol", "rDEV", some "sDEV", 0, 0, 0, 0, 0⟩

/-- Example database before any bounty exists. -/
def exDb0 : DB := ⟨[exAlice, exBob, exCarol], [], [], 1, 1⟩

/-- An open bounty with pooled amount 150 (seed 100 from alice, boost 50 from
bob), as produced by `create_bounty` then `add_contribution`. -/
def exOpenBounty : Bounty :=
  { id := 1, funderId := 1, bountyName := "t", description := "",
    githubIssueUrl := "https://github.com/o/r/issues/5", funderAddress := "rALICE",
    developerAddress := none, amount := 150, escrowId := none, escrowSequence := none,
    escrowSecret := none, escrowFulfillment := none, escrowCondition := none,
    timeLimitSeconds := 3600, developerSecretKey := none, status := "open" }

/-- Seed contribution of the example bounty. -/
def exContrib1 : Contribution := ⟨1, 1, 1, "rALICE", 100, none, none⟩

/-- Boost contribution of the example bounty. -/
def exContrib2 : Contribution := ⟨2, 1, 2, "rBOB", 50, none, none⟩

/-- Example database with the open, boosted bounty. -/
def exDbOpen : DB := ⟨[exAlice, exBob, exCarol], [exOpenBounty], [exContrib1, exContrib2], 2, 3⟩

/-- The example bounty after acceptance by carol. -/
def exAcceptedBounty : Bounty :=
  { exOpenBounty with
    developerAddress := some "rDEV", escrowId := some "H0",
    escrowSequence := some 10, escrowSecret := some "PRE",
    escrowFulfillment := some "FULF", escrowCondition := some "COND",
    developerSecretKey := some "K1234", status := "accepted" }

/-- Example database with the accepted bounty and recorded escrows. -/
def exDbAccepted : DB :=
  ⟨[{ exAlice with currentXrpBalance := 400 },
    { exBob with currentXrpBalance := 150 },
    { exCarol with bountiesAccepted := 1 }],
   [exAcceptedBounty],
   [{ exContrib1 with escrowId := some "H0", escrowSequence := some 10 },
    { exContrib2 with escrowId := some "H1", escrowSequence := some 11 }], 2, 3⟩

/-- A claim environment whose PR references the issue but lacks the secret. -/
def exClaimEnvNoSecret : Api.ClaimEnv :=
  ⟨⟨true, "fixes #5", "", true⟩⟩

/-- An accept environment in which every external XRPL call succeeds. -/
def exAcceptEnvOk : AcceptEnv :=
  ⟨fun _ _ => true, fun k => .ok ⟨"H" ++ toString k, 10 + k⟩,
   "COND", "FULF", "PRE", "K1234"⟩

/-- Bob with a balance too small to cover his 50-unit pledge. -/
def exBobPoor : User := { exBob with currentXrpBalance := 10 }

/-- The open example database, with bob underfunded. -/
def exDbPoor : DB :=
  { exDbOpen with users := [exAlice, exBobPoor, exCarol] }

/-- A legacy database: the open bounty exists but has no contribution rows
(as created before the contributions table was introduced). -/
def exLegacyDb : DB := ⟨[exAlice, exBob, exCarol], [exOpenBounty], [], 2, 1⟩

/-- A claim environment whose PR references the issue, is merged, and carries
the developer secret key. -/
def exClaimEnvOk : Api.ClaimEnv :=
  ⟨⟨true, "fixes #5 K1234", "", true⟩⟩

/-- The accepted example database with both contributors' signing seeds
removed: the claim finish loop skips every contribution, so no finish call is
ever attempted and the claim can reach `db.claim_bounty`. -/
def exDbSkipAll : DB :=
  { exDbAccepted with users :=
    [{ exAlice with currentXrpBalance := 400, xrpSeed := none },
     { exBob with currentXrpBalance := 150, xrpSeed := none },
     { exCarol with bountiesAccepted := 1 }] }

/-- A legacy accepted bounty (no contribution rows), with the escrow sequence
recorded on the bounty row and the funder's seed stored. -/
def exDbLegacyAccepted : DB := ⟨[exAlice, exBob, exCarol], [exAcceptedBounty], [], 2, 1⟩

/-- The empty example database after alice creates a 100-unit bounty. -/
def exDbCreated : DB :=
  (Api.create_bounty exDb0 1 "t" "d" "https://github.com/o/r/issues/5" 100 3600).1

/-- ... after bob boosts that bounty by 50. -/
def exDbBoosted : DB := (Api.boost_bounty exDbCreated 1 2 50).1

/-- ... after the funder cancels the boosted bounty. -/
def exDbCancelled : DB := (Api.cancel_bounty exDbBoosted 1).1

/-- An accept environment in which the first escrow creation succeeds and the
second one fails on the ledger. -/
def exAcceptEnvFail2 : AcceptEnv :=
  ⟨fun _ _ => true,
   fun k => if k == 0 then .ok ⟨"H0", 10⟩ else .error "boom",
   "COND", "FULF", "PRE", "K1234"⟩

end BountyX

namespace BountyX

/-! Theorems.  First a few shared helper lemmas about the embedding. -/

/-- Unfolding of `get_developer_secret_key` once the bounty row is known. -/
theorem get_dev_key_spec (db : DB) (bountyId : Nat) (b : Bounty)
    (hb : findBounty db bountyId = some b) :
    Db.get_developer_secret_key db bountyId =
      match b.developerSecretKey with
      | none => none
      | some k => if k == "" then none else some k := by
  unfold Db.get_developer_secret_key
  rw [hb]

/-- C9: the escrow fulfillment, the escrow condition and the developer
completion secret are nulled out by the row serializer and hence absent from
every bounty returned by the read and list operations; the accept response is
the only producer of the secret (it returns exactly the generated key); and
the developer-secret endpoint releases the stored key only to a caller whose
account address equals the bounty's assigned developer address. -/
theorem c9_secrecy :
    (∀ b : Bounty, (Db.map_bounty_row b).escrowFulfillment = none ∧
      (Db.map_bounty_row b).escrowCondition = none ∧
      (Db.map_bounty_row b).developerSecretKey = none)
    ∧ (∀ (db : DB) (bountyId : Nat) (v : Db.BountyView),
        Db.get_bounty_by_id db bountyId = some v →
        v.escrowFulfillment = none ∧ v.escrowCondition = none ∧
        v.developerSecretKey = none)
    ∧ (∀ (db : DB) (v : Db.BountyView), v ∈ Db.get_all_bounties db →
        v.escrowFulfillment = none ∧ v.escrowCondition = none ∧
        v.developerSecretKey = none)
    ∧ (∀ (db : DB) (s : String) (v : Db.BountyView),
        v ∈ Db.get_bounties_by_status db s →
        v.escrowFulfillment = none ∧ v.escrowCondition = none ∧
        v.developerSecretKey = none)
    ∧ (∀ (db : DB) (funderId : Nat) (v : Db.BountyView),
        v ∈ Db.get_bounties_by_funder db funderId →
        v.escrowFulfillment = none ∧ v.escrowCondition = none ∧
        v.developerSecretKey = none)
    ∧ (∀ (db : DB) (bountyId : Nat) (dev k : String) (env : AcceptEnv),
        (Api.accept_bounty db bountyId dev env).result = .ok k →
        k = env.developerSecretKey)
    ∧ (∀ (db : DB) (bountyId userId : Nat) (k : String),
        Api.get_bounty_developer_secret db bountyId userId = .ok k →
        ∃ u b, findUser db userId = some u ∧ findBounty db bountyId = some b ∧
          b.developerAddress = some u.xrpAddress ∧ b.developerSecretKey = some k) := by
  refine ⟨fun b => ⟨rfl, rfl, rfl⟩, ?_, ?_, ?_, ?_, ?_, ?_⟩
  · intro db bountyId v hv
    rcases Option.map_eq_some'.mp hv with ⟨b, _, rfl⟩
    exact ⟨rfl, rfl, rfl⟩
  · intro db v hv
    rcases List.mem_map.mp hv with ⟨b, _, rfl⟩
    exact ⟨rfl, rfl, rfl⟩
  · intro db s v hv
    rcases List.mem_map.mp hv with ⟨b, _, rfl⟩
    exact ⟨rfl, rfl, rfl⟩
  · intro db funderId v hv
    rcases List.mem_map.mp hv with ⟨b, _, rfl⟩
    exact ⟨rfl, rfl, rfl⟩
  · intro db bountyId dev k env h
    unfold Api.accept_bounty at h
    split at h
    · simp at h
    split at h
    · simp at h
    split at h
    · simp at h
    split at h
    · simp at h
    split at h
    · simp at h
    · simp at h; exact h.symm
  · intro db bountyId userId k h
    unfold Api.get_bounty_developer_secret at h
    split at h
    · simp at h
    next b hb =>
      split at h
      · simp at h
      next devAddr hdev =>
        split at h
        · simp at h
        next hne =>
          split at h
          · simp at h
          next u hu =>
            split at h
            · simp at h
            next haddr =>
              split at h
              · simp at h
              next k1 hk1 =>
                refine ⟨u, b, hu, hb, ?_, ?_⟩
                · have : u.xrpAddress = devAddr := by
                    by_contra hc
                    exact haddr (by simpa [bne_iff_ne] using hc)
                  rw [hdev, this]
                · rw [get_dev_key_spec db bountyId b hb] at hk1
                  simp only [Except.ok.injEq] at h
                  subst h
                  cases hdk : b.developerSecretKey with
                  | none => rw [hdk] at hk1; simp at hk1
                  | some k2 =>
                    rw [hdk] at hk1
                    split at hk1
                    · simp at hk1
                    next k3 heq =>
                      split at hk1
                      · simp at hk1
                      · exact heq.trans hk1

/-- The oracle check is false whenever the secret is absent from both the
title and the body (even if the issue is referenced), and whenever the issue
reference is absent (even if the secret is present). -/
theorem verify_false_of (pr : PrData) (n k : String) (hk : k ≠ "")
    (h : (strContains pr.title k = false ∧ strContains pr.body k = false) ∨
      issue_found_in pr.title pr.body n = false) :
    verify_merge_request_contains_issue pr n (some k) = false := by
  unfold verify_merge_request_contains_issue
  rcases h with ⟨h1, h2⟩ | h3
  · split_ifs with hA hB hC
    · rfl
    · rfl
    · rfl
    · simp [hk, h1, h2]
  · split_ifs with hA hB hC
    · rfl
    · rfl
    · rfl
    · exact absurd (by simp [h3]) hB

/-- C6: on an accepted bounty with a stored (nonempty) developer secret, the
claim endpoint rejects the evidence — with no state change and no external
finish call — whenever the secret is absent from the merge-request title and
body (even if the issue reference is present), and whenever the issue
reference is absent (even if the secret is present). -/
theorem c6_evidence_conjunction (db : DB) (bountyId : Nat) (url : String)
    (env : Api.ClaimEnv) (b : Bounty) (n k : String)
    (hb : findBounty db bountyId = some b)
    (hst : b.status = "accepted")
    (hkey : b.developerSecretKey = some k)
    (hkne : k ≠ "")
    (hex : extract_issue_number_from_url b.githubIssueUrl = some n)
    (hcase : (strContains env.pr.title k = false ∧ strContains env.pr.body k = false) ∨
      issue_found_in env.pr.title env.pr.body n = false) :
    Api.claim_bounty db bountyId url env =
      ⟨db, .error ⟨400, "Merge request must contain both the issue number reference and the developer secret key"⟩, []⟩ := by
  have hverify : verify_merge_request_contains_issue env.pr n (some k) = false :=
    verify_false_of env.pr n k hkne hcase
  have hv : Db.get_bounty_by_id db bountyId = some (Db.map_bounty_row b) := by
    unfold Db.get_bounty_by_id; rw [hb]; rfl
  have hdk : Db.get_developer_secret_key db bountyId = some k := by
    rw [get_dev_key_spec db bountyId b hb, hkey]
    simp [hkne]
  unfold Api.claim_bounty
  rw [hv]
  dsimp only [Db.map_bounty_row]
  rw [hst, hex, hdk]
  simp [hverify]

/-- Witness for C9: on the example database, the developer-secret endpoint
succeeds for carol (the assigned developer), and the theorem yields the
address-match and stored-key facts. -/
theorem c9_secrecy_witness :
    ∃ u b, findUser exDbAccepted 3 = some u ∧ findBounty exDbAccepted 1 = some b ∧
      b.developerAddress = some u.xrpAddress ∧ b.developerSecretKey = some "K1234" :=
  c9_secrecy.2.2.2.2.2.2 exDbAccepted 1 3 "K1234" (by decide)

/-- Witness for C6: a PR that references issue 5 but does not contain the
stored secret "K1234" is rejected with no state change. -/
theorem c6_evidence_conjunction_witness :
    Api.claim_bounty exDbAccepted 1 "https://github.com/o/r/pull/9" exClaimEnvNoSecret =
      ⟨exDbAccepted, .error ⟨400, "Merge request must contain both the issue number reference and the developer secret key"⟩, []⟩ :=
  c6_evidence_conjunction exDbAccepted 1 "https://github.com/o/r/pull/9"
    exClaimEnvNoSecret exAcceptedBounty "5" "K1234" (by decide) rfl rfl
    (by decide) (by decide) (Or.inl ⟨by decide, by decide⟩)

/-- Updating users by id preserves the list of user ids whenever the update
function preserves the id field. -/
theorem updateUsers_map_id (us : List User) (userId : Nat) (f : User → User)
    (hf : ∀ u, (f u).id = u.id) :
    (updateUsers us userId f).map (fun u => u.id) = us.map (fun u => u.id) := by
  unfold updateUsers
  rw [List.map_map]
  refine List.map_congr_left ?_
  intro u _
  by_cases h : u.id == userId <;> simp [Function.comp, h, hf]

/-- Updating bounties by id preserves the list of bounty ids whenever the
update function preserves the id field. -/
theorem updateBounties_map_id (bs : List Bounty) (bountyId : Nat) (f : Bounty → Bounty)
    (hf : ∀ b, (f b).id = b.id) :
    (updateBounties bs bountyId f).map (fun b => b.id) = bs.map (fun b => b.id) := by
  unfold updateBounties
  rw [List.map_map]
  refine List.map_congr_left ?_
  intro b _
  by_cases h : b.id == bountyId <;> simp [Function.comp, h, hf]

/-- A successful `findBounty` returns a member row carrying the looked-up id. -/
theorem findBounty_mem_id (db : DB) (bountyId : Nat) (b : Bounty)
    (h : findBounty db bountyId = some b) : b ∈ db.bounties ∧ b.id = bountyId := by
  unfold findBounty at h
  refine ⟨List.mem_of_find?_eq_some h, ?_⟩
  have hp := List.find?_some h
  simpa using hp

/-- A successful `findUser` returns a member row carrying the looked-up id. -/
theorem findUser_mem_id (db : DB) (userId : Nat) (u : User)
    (h : findUser db userId = some u) : u ∈ db.users ∧ u.id = userId := by
  unfold findUser at h
  refine ⟨List.mem_of_find?_eq_some h, ?_⟩
  have hp := List.find?_some h
  simpa using hp

/-- The `create_bounty` transaction preserves well-formedness and the
pooled-amount invariant. -/
theorem create_bounty_preserves (db : DB) (funderId : Nat)
    (n d gu fa : String) (a : Amount) (tl : Nat) (db1 : DB) (bountyId : Nat)
    (hwf : WF db) (hinv : pooledInv db)
    (h : Db.create_bounty db funderId n d gu fa a tl = .ok (db1, bountyId)) :
    WF db1 ∧ pooledInv db1 := by
  obtain ⟨hnodB, hnodU, hbndB, hbndC⟩ := hwf
  unfold Db.create_bounty at h
  split at h
  · exact absurd h (by simp)
  next u0 hu0 =>
    split at h
    · exact absurd h (by simp)
    next hbal =>
      simp only [Except.ok.injEq, Prod.mk.injEq] at h
      obtain ⟨hdb1, hbid⟩ := h
      subst hdb1
      constructor
      · refine ⟨?_, ?_, ?_, ?_⟩
        · simp only [List.map_append, List.map_cons, List.map_nil]
          rw [List.nodup_append]
          refine ⟨hnodB, List.nodup_singleton _, ?_⟩
          intro x hx hx1
          simp only [List.mem_singleton] at hx1
          rcases List.mem_map.mp hx with ⟨b0, hb0, rfl⟩
          exact absurd (hx1 ▸ hbndB b0 hb0) (lt_irrefl _)
        · rw [updateUsers_map_id]
          · exact hnodU
          · exact fun u => rfl
        · intro b hb
          rcases List.mem_append.mp hb with hb | hb
          · exact Nat.lt_succ_of_lt (hbndB b hb)
          · simp only [List.mem_singleton] at hb
            subst hb
            exact Nat.lt_succ_self _
        · intro c hc
          rcases List.mem_append.mp hc with hc | hc
          · exact Nat.lt_succ_of_lt (hbndC c hc)
          · simp only [List.mem_singleton] at hc
            subst hc
            exact Nat.lt_succ_self _
      · intro b hb
        simp only [List.mem_append, List.mem_singleton] at hb
        unfold contributionsByBounty
        simp only [List.filter_append, List.filter_cons, List.filter_nil]
        rcases hb with hb | hb
        · have hne : (db.nextBountyId == b.id) = false := by
            have := hbndB b hb
            simp only [beq_eq_false_iff_ne]
            omega
          simp only [hne, Bool.false_eq_true, if_false, List.append_nil]
          have hpool := hinv b hb
          unfold contributionsByBounty at hpool
          exact hpool
        · subst hb
          dsimp only
          have hold : db.contributions.filter
              (fun c => c.bountyId == db.nextBountyId) = [] := by
            rw [List.filter_eq_nil_iff]
            intro c hc
            have := hbndC c hc
            simp only [beq_iff_eq]
            omega
          rw [hold]
          simp [sumAmounts]

/-- The `add_contribution` transaction preserves well-formedness and the
pooled-amount invariant. -/
theorem add_contribution_preserves (db : DB) (bountyId contributorId : Nat)
    (a : Amount) (db1 : DB) (contributionId : Int)
    (hwf : WF db) (hinv : pooledInv db)
    (h : Db.add_contribution db bountyId contributorId a = .ok (db1, contributionId)) :
    WF db1 ∧ pooledInv db1 := by
  obtain ⟨hnodB, hnodU, hbndB, hbndC⟩ := hwf
  unfold Db.add_contribution at h
  split at h
  · exact absurd h (by simp)
  next b0 hb0 =>
    split at h
    · exact absurd h (by simp)
    next hstat =>
      split at h
      · exact absurd h (by simp)
      next u0 hu0 =>
        split at h
        · exact absurd h (by simp)
        split at h
        · exact absurd h (by simp)
        next hbal =>
          simp only [Except.ok.injEq, Prod.mk.injEq] at h
          obtain ⟨hdb1, hcid⟩ := h
          subst hdb1
          obtain ⟨hb0mem, hb0id⟩ := findBounty_mem_id db bountyId b0 hb0
          constructor
          · refine ⟨?_, ?_, ?_, ?_⟩
            · rw [updateBounties_map_id]
              · exact hnodB
              · exact fun b => rfl
            · rw [updateUsers_map_id]
              · exact hnodU
              · exact fun u => rfl
            · intro b hb
              simp only at hb
              rcases List.mem_map.mp hb with ⟨b1, hb1, rfl⟩
              by_cases hcase : b1.id == bountyId <;>
                simp only [hcase, if_true, if_false, ite_true, ite_false] <;>
                exact hbndB b1 hb1
            · intro c hc
              simp only at hc
              rcases List.mem_append.mp hc with hc | hc
              · exact hbndC c hc
              · simp only [List.mem_singleton] at hc
                subst hc
                simpa using hb0id ▸ hbndB b0 hb0mem
          · intro b hb
            simp only at hb
            rcases List.mem_map.mp hb with ⟨b1, hb1, rfl⟩
            unfold contributionsByBounty
            simp only [List.filter_append, List.filter_cons, List.filter_nil]
            by_cases hcase : b1.id = bountyId
            · have hbeq : (b1.id == bountyId) = true := by simpa using hcase
              simp only [hbeq, if_true]
              have h2 : (bountyId == b1.id) = true := by simpa using hcase.symm
              simp only [h2, if_true]
              unfold sumAmounts
              rw [List.map_append, List.sum_append]
              have hpool := hinv b1 hb1
              unfold sumAmounts contributionsByBounty at hpool
              rw [← hpool]
              simp
            · have hbeq : (b1.id == bountyId) = false := by simpa using hcase
              simp only [hbeq, Bool.false_eq_true, if_false]
              have h2 : (bountyId == b1.id) = false := by
                simp only [beq_eq_false_iff_ne, ne_eq]
                exact fun hx => hcase hx.symm
              simp only [h2, Bool.false_eq_true, if_false, List.append_nil]
              have hpool := hinv b1 hb1
              unfold contributionsByBounty at hpool
              exact hpool

/-- C2: after every bounty-creation call and after every boost call (on a
well-formed database satisfying the pooled-amount invariant), every bounty's
stored pooled amount still equals the sum of the amounts of its live
contribution rows (the seed contribution plus all boosts), and the database
stays well-formed. -/
theorem c2_pool_invariant :
    (∀ (db : DB) (funderId : Nat) (n d gu : String) (a : Amount) (tl : Nat),
      WF db → pooledInv db →
      WF (Api.create_bounty db funderId n d gu a tl).1 ∧
      pooledInv (Api.create_bounty db funderId n d gu a tl).1)
    ∧ (∀ (db : DB) (bountyId contributorId : Nat) (a : Amount),
      WF db → pooledInv db →
      WF (Api.boost_bounty db bountyId contributorId a).1 ∧
      pooledInv (Api.boost_bounty db bountyId contributorId a).1) := by
  constructor
  · intro db funderId n d gu a tl hwf hinv
    unfold Api.create_bounty
    split
    · exact ⟨hwf, hinv⟩
    next u hu =>
      split
      · exact ⟨hwf, hinv⟩
      split
      · exact ⟨hwf, hinv⟩
      next db1 bountyId hok =>
        exact create_bounty_preserves db funderId n d gu u.xrpAddress a tl db1
          bountyId hwf hinv hok
  · intro db bountyId contributorId a hwf hinv
    unfold Api.boost_bounty
    split
    · exact ⟨hwf, hinv⟩
    split
    · exact ⟨hwf, hinv⟩
    split
    · exact ⟨hwf, hinv⟩
    split
    · exact ⟨hwf, hinv⟩
    split
    · exact ⟨hwf, hinv⟩
    split
    · exact ⟨hwf, hinv⟩
    split
    · exact ⟨hwf, hinv⟩
    next db1 contributionId hok =>
      exact add_contribution_preserves db bountyId contributorId a db1
        contributionId hwf hinv hok

/-- Witness for C2: creating a bounty then boosting it on the example
database keeps the invariant. -/
theorem c2_pool_invariant_witness :
    WF (Api.create_bounty exDb0 1 "t" "" "https://github.com/o/r/issues/5" 100 3600).1 ∧
    pooledInv (Api.create_bounty exDb0 1 "t" "" "https://github.com/o/r/issues/5" 100 3600).1 :=
  c2_pool_invariant.1 exDb0 1 "t" "" "https://github.com/o/r/issues/5" 100 3600
    (by unfold WF; decide) (by unfold pooledInv; decide)

/-- Soundness of a successful validation loop: the validated pairs list the
original contributions in order, and every contributor was found, has a
seed, has sufficient balance, and passed the external account validation. -/
theorem validateContributions_ok_sound (db : DB) (env : AcceptEnv) :
    ∀ (l : List Contribution) (ps : List (Contribution × User)),
    validateContributions db env l = .ok ps →
    ps.map Prod.fst = l ∧
    ∀ p ∈ ps, findUser db p.1.contributorId = some p.2 ∧ ∃ seed,
      p.2.xrpSeed = some seed ∧ ¬(p.2.currentXrpBalance < p.1.amount) ∧
      env.validateOk seed p.1.amount = true := by
  intro l
  induction l with
  | nil =>
    intro ps h
    unfold validateContributions at h
    simp only [Except.ok.injEq] at h
    subst h
    exact ⟨rfl, by simp⟩
  | cons c rest ih =>
    intro ps h
    unfold validateContributions at h
    split at h
    · simp at h
    next u hfu =>
      split at h
      · simp at h
      next seed hs =>
        split at h
        · simp at h
        next hse =>
          split at h
          · simp at h
          next hbal =>
            split at h
            · simp at h
            next hval =>
              split at h
              · simp at h
              next ps1 hrec =>
                simp only [Except.ok.injEq] at h
                subst h
                obtain ⟨hmap, hall⟩ := ih ps1 hrec
                refine ⟨by simp [hmap], ?_⟩
                intro p hp
                rcases List.mem_cons.mp hp with rfl | hp
                · exact ⟨hfu, seed, hs, hbal, by simpa using hval⟩
                · exact hall p hp

/-- C3: if any contributor of the bounty has insufficient balance or no
signing seed, `accept_bounty` fails before any external escrow-creation
call: zero escrows are created and the database is unchanged. -/
theorem c3_precondition_atomicity (db : DB) (bountyId : Nat) (dev : String)
    (env : AcceptEnv)
    (hbad : ∃ c ∈ contributionsByBounty db bountyId, ∃ u,
      findUser db c.contributorId = some u ∧
      (u.xrpSeed = none ∨ u.currentXrpBalance < c.amount)) :
    (Api.accept_bounty db bountyId dev env).db = db ∧
    (Api.accept_bounty db bountyId dev env).createdEscrows = [] ∧
    ∃ e, (Api.accept_bounty db bountyId dev env).result = .error e := by
  unfold Api.accept_bounty
  split
  · exact ⟨rfl, rfl, _, rfl⟩
  next b heqb =>
  split
  · exact ⟨rfl, rfl, _, rfl⟩
  obtain ⟨c, hcmem, hbadc⟩ := hbad
  split
  · exact ⟨rfl, rfl, _, rfl⟩
  next contributions heqrows =>
  split
  · exact ⟨rfl, rfl, _, rfl⟩
  next ps heqval =>
  exfalso
  cases hrows : contributionsByBounty db bountyId with
  | nil =>
    rw [hrows] at hcmem
    simp at hcmem
  | cons r rs =>
    have h2 : (r :: rs) = contributions := by
      unfold Api.legacyOrRows at heqrows
      rw [hrows] at heqrows
      exact Except.ok.inj heqrows
    subst h2
    obtain ⟨hmap, hall⟩ := validateContributions_ok_sound db env (r :: rs) ps heqval
    rw [hrows] at hcmem
    rw [← hmap] at hcmem
    rcases List.mem_map.mp hcmem with ⟨p, hp, hpc⟩
    obtain ⟨hfu, seed, hs, hbal, -⟩ := hall p hp
    obtain ⟨u, hu, hbadu⟩ := hbadc
    rw [hpc, hu] at hfu
    have hup : u = p.2 := Option.some.inj hfu
    subst hup
    rcases hbadu with hbadu | hbadu
    · rw [hs] at hbadu; cases hbadu
    · exact hbal (hpc ▸ hbadu)

/-- On the target id, `find?` after an id-preserving update returns the
updated row. -/
theorem find_updateBounties_self (bs : List Bounty) (bountyId : Nat)
    (f : Bounty → Bounty) (hf : ∀ b, (f b).id = b.id) :
    (updateBounties bs bountyId f).find? (fun b => b.id == bountyId) =
      (bs.find? (fun b => b.id == bountyId)).map f := by
  induction bs with
  | nil => rfl
  | cons b bs ih =>
    unfold updateBounties
    unfold updateBounties at ih
    by_cases h : b.id = bountyId
    · have hb : (b.id == bountyId) = true := by simpa using h
      have hfb : ((f b).id == bountyId) = true := by rw [hf]; exact hb
      have h2 : (if b.id = bountyId then f b else b) = f b := if_pos h
      simp [List.find?_cons, hb, hfb, h2]
    · have hb : (b.id == bountyId) = false := by simpa using h
      simp only [List.map_cons, List.find?_cons, hb, Bool.false_eq_true, if_false]
      exact ih

/-- After `accept_bounty_multi`, the accepted bounty row carries the new
metadata and status "accepted". -/
theorem accept_multi_post (db : DB) (bountyId : Nat) (b : Bounty)
    (dev : String) (fid : Option String) (fseq : Option Nat)
    (k cond ful sec : String) (escrows : List Db.ContributionEscrow)
    (deds : List Db.BalanceDeduction)
    (hb : findBounty db bountyId = some b) :
    findBounty (Db.accept_bounty_multi db bountyId dev fid fseq k cond ful sec
      escrows deds) bountyId =
      some { b with
             developerAddress := some dev, escrowId := fid,
             escrowSequence := fseq, escrowSecret := some sec,
             escrowFulfillment := some ful, escrowCondition := some cond,
             developerSecretKey := some k, status := "accepted" } := by
  unfold Db.accept_bounty_multi findBounty
  simp only
  rw [find_updateBounties_self]
  · unfold findBounty at hb
    rw [hb]
    rfl
  · exact fun b => rfl

/-- After a successful `db.claim_bounty`, the bounty row has status
"claimed" (all other fields unchanged). -/
theorem claim_bounty_post (db db1 : DB) (bountyId : Nat) (b : Bounty)
    (hb : findBounty db bountyId = some b)
    (h : Db.claim_bounty db bountyId = .ok db1) :
    findBounty db1 bountyId = some { b with status := "claimed" } := by
  unfold Db.claim_bounty at h
  split at h
  · simp at h
  next b2 heq =>
    rw [hb] at heq
    obtain rfl : b2 = b := (Option.some.inj heq).symm
    have h2 := Except.ok.inj h
    subst h2
    unfold findBounty
    simp only
    rw [find_updateBounties_self]
    · unfold findBounty at hb
      rw [hb]
      rfl
    · exact fun b => rfl

/-- After a successful `db.add_contribution`, the bounty row has its pooled
amount increased by the contribution (status and other fields unchanged). -/
theorem add_contribution_post (db db1 : DB) (bountyId contributorId : Nat)
    (a : Amount) (cid : Int) (b : Bounty)
    (hb : findBounty db bountyId = some b)
    (h : Db.add_contribution db bountyId contributorId a = .ok (db1, cid)) :
    findBounty db1 bountyId = some { b with amount := b.amount + a } := by
  unfold Db.add_contribution at h
  split at h
  · simp at h
  next b2 heq =>
    rw [hb] at heq
    obtain rfl : b2 = b := (Option.some.inj heq).symm
    split at h
    · simp at h
    split at h
    · simp at h
    next u hu =>
      split at h
      · simp at h
      split at h
      · simp at h
      simp only [Except.ok.injEq, Prod.mk.injEq] at h
      obtain ⟨hdb1, -⟩ := h
      subst hdb1
      unfold findBounty
      simp only
      rw [find_updateBounties_self]
      · unfold findBounty at hb
        rw [hb]
        rfl
      · exact fun b => rfl

/-- After a successful `db.cancel_bounty`, the bounty row has status
"cancelled". -/
theorem cancel_bounty_post (db db1 : DB) (bountyId : Nat) (done : Bool) (b : Bounty)
    (hb : findBounty db bountyId = some b)
    (h : Db.cancel_bounty db bountyId = .ok (db1, done)) :
    b.status = "open" ∧ findBounty db1 bountyId = some { b with status := "cancelled" } := by
  unfold Db.cancel_bounty at h
  split at h
  · simp at h
  next b2 heq =>
    rw [hb] at heq
    obtain rfl : b2 = b := (Option.some.inj heq).symm
    split at h
    · simp at h
    next hopen =>
      refine ⟨by simpa using hopen, ?_⟩
      simp only [Except.ok.injEq, Prod.mk.injEq] at h
      obtain ⟨hdb1, -⟩ := h
      subst hdb1
      unfold findBounty
      simp only
      rw [find_updateBounties_self]
      · unfold findBounty at hb
        rw [hb]
        rfl
      · exact fun b => rfl

/-- C7: the bounty status machine.  A boost, accept or cancel on a non-open
bounty, and a claim on a non-accepted bounty (including a second claim),
fail with an error, make no external call, and leave the database unchanged;
and the successful operations only realize the legal transitions
open→accepted (accept), accepted→claimed (claim), open→cancelled (the cancel
transaction), with boost preserving the status of its open bounty. -/
theorem c7_state_machine :
    (∀ (db : DB) (bountyId contributorId : Nat) (a : Amount) (b : Bounty),
      findBounty db bountyId = some b → b.status ≠ "open" →
      (Api.boost_bounty db bountyId contributorId a).1 = db ∧
      ∃ e, (Api.boost_bounty db bountyId contributorId a).2 = .error e)
    ∧ (∀ (db : DB) (bountyId : Nat) (dev : String) (env : AcceptEnv) (b : Bounty),
      findBounty db bountyId = some b → b.status ≠ "open" →
      (Api.accept_bounty db bountyId dev env).db = db ∧
      (Api.accept_bounty db bountyId dev env).createdEscrows = [] ∧
      ∃ e, (Api.accept_bounty db bountyId dev env).result = .error e)
    ∧ (∀ (db : DB) (bountyId : Nat) (url : String) (env : Api.ClaimEnv) (b : Bounty),
      findBounty db bountyId = some b → b.status ≠ "accepted" →
      (Api.claim_bounty db bountyId url env).db = db ∧
      (Api.claim_bounty db bountyId url env).finishCalls = [] ∧
      ∃ e, (Api.claim_bounty db bountyId url env).result = .error e)
    ∧ (∀ (db : DB) (bountyId : Nat) (b : Bounty),
      findBounty db bountyId = some b → b.status ≠ "open" →
      (Api.cancel_bounty db bountyId).1 = db ∧
      ∃ e, (Api.cancel_bounty db bountyId).2 = .error e)
    ∧ (∀ (db : DB) (bountyId contributorId : Nat) (a : Amount) (k : Int) (b : Bounty),
      findBounty db bountyId = some b →
      (Api.boost_bounty db bountyId contributorId a).2 = .ok k →
      b.status = "open" ∧
      findBounty (Api.boost_bounty db bountyId contributorId a).1 bountyId =
        some { b with amount := b.amount + a })
    ∧ (∀ (db : DB) (bountyId : Nat) (dev k : String) (env : AcceptEnv) (b : Bounty),
      findBounty db bountyId = some b →
      (Api.accept_bounty db bountyId dev env).result = .ok k →
      b.status = "open" ∧
      ∃ b', findBounty (Api.accept_bounty db bountyId dev env).db bountyId = some b' ∧
        b'.status = "accepted")
    ∧ (∀ (db : DB) (bountyId : Nat) (url : String) (env : Api.ClaimEnv) (b : Bounty),
      findBounty db bountyId = some b →
      (Api.claim_bounty db bountyId url env).result = .ok () →
      b.status = "accepted" ∧
      findBounty (Api.claim_bounty db bountyId url env).db bountyId =
        some { b with status := "claimed" })
    ∧ (∀ (db db1 : DB) (bountyId : Nat) (done : Bool) (b : Bounty),
      findBounty db bountyId = some b →
      Db.cancel_bounty db bountyId = .ok (db1, done) →
      b.status = "open" ∧
      findBounty db1 bountyId = some { b with status := "cancelled" }) := by
  have hview : ∀ (db : DB) (bountyId : Nat) (b : Bounty),
      findBounty db bountyId = some b →
      Db.get_bounty_by_id db bountyId = some (Db.map_bounty_row b) := by
    intro db bountyId b hb
    unfold Db.get_bounty_by_id
    rw [hb]
    rfl
  refine ⟨?_, ?_, ?_, ?_, ?_, ?_, ?_, ?_⟩
  · intro db bountyId contributorId a b hb hst
    unfold Api.boost_bounty
    rw [hview db bountyId b hb]
    have hcond : ((Db.map_bounty_row b).status != "open") = true := by
      simpa [Db.map_bounty_row] using hst
    simp [hcond]
  · intro db bountyId dev env b hb hst
    unfold Api.accept_bounty
    rw [hb]
    have hcond : (b.status != "open") = true := by simpa using hst
    simp [hcond]
  · intro db bountyId url env b hb hst
    unfold Api.claim_bounty
    rw [hview db bountyId b hb]
    have hcond : ((Db.map_bounty_row b).status != "accepted") = true := by
      simpa [Db.map_bounty_row] using hst
    simp [hcond]
  · intro db bountyId b hb hst
    unfold Api.cancel_bounty
    have herr : Db.cancel_bounty db bountyId = .error "Can only cancel open bounties" := by
      unfold Db.cancel_bounty
      rw [hb]
      have : (b.status != "open") = true := by simpa using hst
      simp only [this, if_true]
    rw [herr]
    exact ⟨rfl, _, rfl⟩
  · intro db bountyId contributorId a k b hb hok
    unfold Api.boost_bounty at hok ⊢
    rw [hview db bountyId b hb] at hok ⊢
    by_cases hst : b.status = "open"
    · refine ⟨hst, ?_⟩
      have hb2 : ((Db.map_bounty_row b).status != "open") = false := by
        simp [Db.map_bounty_row, hst]
      simp only [hb2, Bool.false_eq_true, if_false] at hok ⊢
      split at hok
      · simp at hok
      next hcf =>
        split at hok
        · simp at hok
        next hle =>
          split at hok
          · simp at hok
          next u hu =>
            split at hok
            · simp at hok
            next hbal =>
              split at hok
              · simp at hok
              next db1 cid hadd =>
                simp only [if_neg hcf, if_neg hle, hu, if_neg hbal, hadd]
                exact add_contribution_post db db1 bountyId contributorId a cid b hb hadd
    · have hb2 : ((Db.map_bounty_row b).status != "open") = true := by
        simpa [Db.map_bounty_row] using hst
      simp only [hb2, if_true] at hok
      simp at hok
  · intro db bountyId dev k env b hb hok
    unfold Api.accept_bounty at hok ⊢
    rw [hb] at hok ⊢
    by_cases hst : b.status = "open"
    · refine ⟨hst, ?_⟩
      have hb2 : (b.status != "open") = false := by simp [hst]
      simp only [hb2, Bool.false_eq_true, if_false] at hok ⊢
      split at hok
      · simp at hok
      next contributions heqrows =>
        split at hok
        · simp at hok
        next ps heqval =>
          rcases hloop : escrowLoop env ps 0 with ⟨issued, deds, fail⟩
          rw [hloop] at hok
          cases fail with
          | some e => simp at hok
          | none =>
            simp only [heqrows, heqval, hloop]
            exact ⟨_, accept_multi_post db bountyId b dev _ _ _ _ _ _ _ _ hb, rfl⟩
    · have hb2 : (b.status != "open") = true := by simpa using hst
      simp only [hb2, if_true] at hok
      simp at hok
  · intro db bountyId url env b hb hok
    unfold Api.claim_bounty at hok ⊢
    rw [hview db bountyId b hb] at hok ⊢
    by_cases hst : b.status = "accepted"
    · refine ⟨hst, ?_⟩
      have hb2 : ((Db.map_bounty_row b).status != "accepted") = false := by
        simp [Db.map_bounty_row, hst]
      simp only [hb2, Bool.false_eq_true, if_false] at hok ⊢
      split at hok
      · simp at hok
      next n hex =>
        split at hok
        · simp at hok
        next sk hsk =>
          split at hok
          · simp at hok
          next hver =>
            split at hok
            · simp at hok
            next internal hint =>
              split at hok
              · simp at hok
              next ff hff =>
                split at hok
                · simp at hok
                next hffne =>
                  split at hok
                  next heqrows =>
                    split at hok
                    · simp at hok
                    next funder hfun =>
                      simp at hok
                  next r rs heqrows =>
                    split at hok
                    · simp at hok
                    next hatt =>
                      split at hok
                      · simp at hok
                      next db1 hclaim =>
                        simp only [hex, hsk, if_neg hver, hint, hff,
                          if_neg hffne, heqrows, if_neg hatt, hclaim]
                        exact claim_bounty_post db db1 bountyId b hb hclaim
    · have hb2 : ((Db.map_bounty_row b).status != "accepted") = true := by
        simpa [Db.map_bounty_row] using hst
      simp only [hb2, if_true] at hok
      simp at hok
  · intro db db1 bountyId done b hb hcancel
    exact cancel_bounty_post db db1 bountyId done b hb hcancel

/-- Witness for C7: boosting the already-accepted example bounty fails and
leaves the database unchanged. -/
theorem c7_state_machine_witness :
    (Api.boost_bounty exDbAccepted 1 2 50).1 = exDbAccepted ∧
    ∃ e, (Api.boost_bounty exDbAccepted 1 2 50).2 = .error e :=
  c7_state_machine.1 exDbAccepted 1 2 50 exAcceptedBounty (by decide) (by decide)

/-- Witness for C3: on the underfunded example database, accept fails with
no escrow created and no state change. -/
theorem c3_precondition_atomicity_witness :
    (Api.accept_bounty exDbPoor 1 "rDEV" exAcceptEnvOk).db = exDbPoor ∧
    (Api.accept_bounty exDbPoor 1 "rDEV" exAcceptEnvOk).createdEscrows = [] ∧
    ∃ e, (Api.accept_bounty exDbPoor 1 "rDEV" exAcceptEnvOk).result = .error e :=
  c3_precondition_atomicity exDbPoor 1 "rDEV" exAcceptEnvOk
    ⟨exContrib2, by decide, exBobPoor, by decide, Or.inr (by decide)⟩

/-- Characterization of a failure-free escrow creation loop: one escrow is
issued per validated contribution in order, and one deduction of exactly the
contribution's amount from its contributor. -/
theorem escrowLoop_none_spec (env : AcceptEnv) :
    ∀ (ps : List (Contribution × User)) (k : Nat),
    (escrowLoop env ps k).failure = none →
    (escrowLoop env ps k).issued.map (fun e => e.contributionId) =
      ps.map (fun p => p.1.id) ∧
    (escrowLoop env ps k).deductions =
      ps.map (fun p => (⟨p.2.id, p.1.amount⟩ : Db.BalanceDeduction)) := by
  intro ps
  induction ps with
  | nil =>
    intro k h
    simp [escrowLoop]
  | cons p rest ih =>
    intro k hfail
    obtain ⟨c, u⟩ := p
    cases hce : env.createEscrow k with
    | error m =>
      unfold escrowLoop at hfail
      rw [hce] at hfail
      simp at hfail
    | ok esc =>
      unfold escrowLoop at hfail ⊢
      rw [hce] at hfail ⊢
      obtain ⟨h1, h2⟩ := ih (k + 1) (by simpa using hfail)
      simp [h1, h2]

/-- C10 (amended): when a bounty has no contribution rows, accept
synthesizes exactly one legacy contribution (id -1) attributed to the funder
for the full bounty amount and issues exactly one escrow for it, and the
multi-contribution path is taken if and only if at least one contribution
row exists.  Claim on such a legacy bounty, however, never finishes the
escrow recorded on the bounty row: the `finish_conditional_escrow` call
omits its required `condition_hex` argument, so every claim of a legacy
bounty fails (with the generic mapped `TypeError` once all verification
gates pass), leaves the database unchanged, and performs no external finish
call. -/
theorem c10_legacy_paths :
    (∀ (db : DB) (bountyId : Nat) (dev : String) (env : AcceptEnv) (b : Bounty)
      (fu : User) (seed : String) (esc : EscrowResult),
      findBounty db bountyId = some b →
      b.status = "open" →
      contributionsByBounty db bountyId = [] →
      findUser db b.funderId = some fu →
      fu.xrpSeed = some seed →
      (seed == "") = false →
      ¬(fu.currentXrpBalance < b.amount) →
      env.validateOk seed b.amount = true →
      env.createEscrow 0 = .ok esc →
      (Api.accept_bounty db bountyId dev env).result = .ok env.developerSecretKey ∧
      (Api.accept_bounty db bountyId dev env).createdEscrows =
        [⟨-1, esc.hash, esc.sequence⟩] ∧
      (Api.accept_bounty db bountyId dev env).db =
        Db.accept_bounty_multi db bountyId dev (some esc.hash) (some esc.sequence)
          env.developerSecretKey env.conditionHex env.fulfillmentHex env.preimageHex
          [⟨-1, esc.hash, esc.sequence⟩] [⟨fu.id, b.amount⟩])
    ∧ (∀ (db : DB) (bountyId : Nat) (url : String) (env : Api.ClaimEnv),
      contributionsByBounty db bountyId = [] →
      (Api.claim_bounty db bountyId url env).db = db ∧
      (Api.claim_bounty db bountyId url env).finishCalls = [] ∧
      ∃ e, (Api.claim_bounty db bountyId url env).result = .error e)
    ∧ (∀ (db : DB) (bountyId : Nat) (url : String) (env : Api.ClaimEnv) (b : Bounty)
      (funder : User) (n sk ff : String),
      findBounty db bountyId = some b →
      b.status = "accepted" →
      contributionsByBounty db bountyId = [] →
      findUser db b.funderId = some funder →
      extract_issue_number_from_url b.githubIssueUrl = some n →
      Db.get_developer_secret_key db bountyId = some sk →
      verify_merge_request_contains_issue env.pr n (some sk) = true →
      b.escrowFulfillment = some ff →
      (ff == "") = false →
      (Api.claim_bounty db bountyId url env).result =
        .error (Api.mapFinishError Api.finishTypeError))
    ∧ (∀ (db : DB) (bountyId : Nat) (dev k : String) (env : AcceptEnv) (b : Bounty)
      (r : Contribution) (rs : List Contribution),
      findBounty db bountyId = some b →
      contributionsByBounty db bountyId = r :: rs →
      (Api.accept_bounty db bountyId dev env).result = .ok k →
      (Api.accept_bounty db bountyId dev env).createdEscrows.map
        (fun e => e.contributionId) = (r :: rs).map (fun c => c.id)) := by
  refine ⟨?_, ?_, ?_, ?_⟩
  · intro db bountyId dev env b fu seed esc hb hst hrows hfund hseed hsne hbal hvo hesc
    have hfuid : fu.id = b.funderId := (findUser_mem_id db b.funderId fu hfund).2
    have hrowsE : Api.legacyOrRows db bountyId b =
        .ok [⟨-1, bountyId, fu.id, fu.xrpAddress, b.amount, none, none⟩] := by
      unfold Api.legacyOrRows
      rw [hrows, hfund]
    have hval : validateContributions db env
        [⟨-1, bountyId, fu.id, fu.xrpAddress, b.amount, none, none⟩] =
        .ok [(⟨-1, bountyId, fu.id, fu.xrpAddress, b.amount, none, none⟩, fu)] := by
      unfold validateContributions
      simp only [hfuid, hfund, hseed, hsne, Bool.false_eq_true, if_false,
        if_neg hbal, hvo, Bool.not_true]
      rfl
    have hloop : escrowLoop env
        [(⟨-1, bountyId, fu.id, fu.xrpAddress, b.amount, none, none⟩, fu)] 0 =
        ⟨[⟨-1, esc.hash, esc.sequence⟩], [⟨fu.id, b.amount⟩], none⟩ := by
      unfold escrowLoop
      rw [hesc]
      rfl
    unfold Api.accept_bounty
    rw [hb]
    have hst2 : (b.status != "open") = false := by simp [hst]
    simp only [hst2, Bool.false_eq_true, if_false, hrowsE, hval, hloop]
    exact ⟨trivial, trivial, rfl⟩
  · intro db bountyId url env hrows
    unfold Api.claim_bounty
    cases hv : Db.get_bounty_by_id db bountyId with
    | none =>
      simp only [hv]
      exact ⟨trivial, trivial, _, rfl⟩
    | some bv =>
      simp only [hv]
      by_cases hstat : (bv.status != "accepted") = true
      · simp only [hstat, if_true]
        exact ⟨trivial, trivial, _, rfl⟩
      · have hstat2 : (bv.status != "accepted") = false := by simpa using hstat
        simp only [hstat2, Bool.false_eq_true, if_false]
        cases hex : extract_issue_number_from_url bv.githubIssueUrl with
        | none =>
          simp only [hex]
          exact ⟨trivial, trivial, _, rfl⟩
        | some n =>
          simp only [hex]
          cases hsk : Db.get_developer_secret_key db bountyId with
          | none =>
            simp only [hsk]
            exact ⟨trivial, trivial, _, rfl⟩
          | some sk =>
            simp only [hsk]
            by_cases hver : (!verify_merge_request_contains_issue env.pr n (some sk)) = true
            · simp only [hver, if_true]
              exact ⟨trivial, trivial, _, rfl⟩
            · have hver2 : (!verify_merge_request_contains_issue env.pr n (some sk)) =
                  false := by simpa using hver
              simp only [hver2, Bool.false_eq_true, if_false]
              cases hint : findBounty db bountyId with
              | none =>
                simp only [hint]
                exact ⟨trivial, trivial, _, rfl⟩
              | some internal =>
                simp only [hint]
                cases hff : internal.escrowFulfillment with
                | none =>
                  simp only [hff]
                  exact ⟨trivial, trivial, _, rfl⟩
                | some ff =>
                  simp only [hff]
                  by_cases hffe : (ff == "") = true
                  · simp only [hffe, if_true]
                    exact ⟨trivial, trivial, _, rfl⟩
                  · have hffe2 : (ff == "") = false := by simpa using hffe
                    simp only [hffe2, Bool.false_eq_true, if_false, hrows]
                    cases hfund : findUser db bv.funderId with
                    | none =>
                      simp only [hfund]
                      exact ⟨trivial, trivial, _, rfl⟩
                    | some funder =>
                      simp only [hfund]
                      exact ⟨trivial, trivial, _, rfl⟩
  · intro db bountyId url env b funder n sk ff hb hst hrows hfund hex hsk hver hff hffne
    have hv : Db.get_bounty_by_id db bountyId = some (Db.map_bounty_row b) := by
      unfold Db.get_bounty_by_id
      rw [hb]
      rfl
    unfold Api.claim_bounty
    rw [hv]
    dsimp only [Db.map_bounty_row]
    rw [hst, hex, hsk]
    simp [hver, hb, hff, hffne, hrows, hfund]
  · intro db bountyId dev k env b r rs hb hrows hok
    unfold Api.accept_bounty at hok ⊢
    rw [hb] at hok ⊢
    by_cases hst : b.status = "open"
    case neg =>
      have hst2 : (b.status != "open") = true := by simpa using hst
      simp only [hst2, if_true] at hok
      simp at hok
    have hst2 : (b.status != "open") = false := by simp [hst]
    simp only [hst2, Bool.false_eq_true, if_false] at hok ⊢
    split at hok
    · simp at hok
    next contributions heqrows =>
      split at hok
      · simp at hok
      next ps heqval =>
        rcases hloop : escrowLoop env ps 0 with ⟨issued, deds, fail⟩
        rw [hloop] at hok
        cases fail with
        | some e => simp at hok
        | none =>
          have hc : contributions = r :: rs := by
            unfold Api.legacyOrRows at heqrows
            rw [hrows] at heqrows
            exact (Except.ok.inj heqrows).symm
          subst hc
          obtain ⟨hmap, -⟩ := validateContributions_ok_sound db env (r :: rs) ps heqval
          obtain ⟨hids, -⟩ := escrowLoop_none_spec env ps 0 (by rw [hloop])
          rw [hloop] at hids
          simp only [heqrows, heqval, hloop]
          rw [hids, ← hmap, List.map_map]
          rfl

/-- Counterexample to C10 as stated: on a legacy accepted bounty with the
escrow sequence recorded, the funder seed stored, and every verification
gate passing, the claim does not finish the escrow — it fails with the
mapped TypeError (a generic 500), changes nothing, and performs no external
finish call. -/
theorem c10_counterexample :
    findBounty exDbLegacyAccepted 1 = some exAcceptedBounty ∧
    contributionsByBounty exDbLegacyAccepted 1 = [] ∧
    exAcceptedBounty.escrowSequence = some 10 ∧
    (findUser exDbLegacyAccepted 1).map (fun u => u.xrpSeed) =
      some (some "sALICE") ∧
    (Api.claim_bounty exDbLegacyAccepted 1 "u" exClaimEnvOk).result =
      .error (Api.mapFinishError Api.finishTypeError) ∧
    (Api.mapFinishError Api.finishTypeError).statusCode = 500 ∧
    (Api.claim_bounty exDbLegacyAccepted 1 "u" exClaimEnvOk).db =
      exDbLegacyAccepted ∧
    (Api.claim_bounty exDbLegacyAccepted 1 "u" exClaimEnvOk).finishCalls = [] := by
  decide

/-- Witness for C10 (amended): accepting the legacy bounty (no contribution
rows) issues exactly one escrow, recorded against the synthesized id -1. -/
theorem c10_legacy_paths_witness :
    (Api.accept_bounty exLegacyDb 1 "rDEV" exAcceptEnvOk).createdEscrows =
      [⟨-1, "H0", 10⟩] :=
  (c10_legacy_paths.1 exLegacyDb 1 "rDEV" exAcceptEnvOk exOpenBounty exAlice
    "sALICE" ⟨"H0", 10⟩ (by decide) (by decide) (by decide) (by decide)
    (by decide) (by decide) (by decide) (by decide) (by decide)).2.1

/-- `applyEscrows` over a cons is `applyEscrows` over the tail after the
head's conditional update. -/
theorem applyEscrows_cons (e : Db.ContributionEscrow) (es : List Db.ContributionEscrow)
    (c : Contribution) :
    applyEscrows (e :: es) c =
      applyEscrows es (if c.id == e.contributionId then
        { c with escrowId := some e.escrowId, escrowSequence := some e.escrowSequence }
      else c) := rfl

/-- The contribution-update fold of `accept_bounty_multi` is a pointwise map. -/
theorem contribFold_eq_map (es : List Db.ContributionEscrow) :
    ∀ cs : List Contribution,
    es.foldl (fun cs e => updateContributions cs e.contributionId (fun c =>
      { c with escrowId := some e.escrowId, escrowSequence := some e.escrowSequence })) cs
    = cs.map (applyEscrows es) := by
  induction es with
  | nil =>
    intro cs
    simp only [List.foldl_nil]
    have h1 : cs.map (applyEscrows []) = cs.map (fun c => c) :=
      List.map_congr_left (fun c _ => rfl)
    rw [h1]
    simp
  | cons e es ih =>
    intro cs
    simp only [List.foldl_cons]
    rw [ih]
    unfold updateContributions
    rw [List.map_map]
    refine List.map_congr_left ?_
    intro c _
    rw [applyEscrows_cons]
    rfl

/-- `applyEscrows` never changes a row's id or bounty id. -/
theorem applyEscrows_id_bounty (es : List Db.ContributionEscrow) :
    ∀ c : Contribution,
    (applyEscrows es c).id = c.id ∧ (applyEscrows es c).bountyId = c.bountyId := by
  induction es with
  | nil =>
    intro c
    exact ⟨rfl, rfl⟩
  | cons e es ih =>
    intro c
    rw [applyEscrows_cons]
    obtain ⟨h1, h2⟩ := ih (if c.id == e.contributionId then
      { c with escrowId := some e.escrowId, escrowSequence := some e.escrowSequence } else c)
    constructor
    · rw [h1]
      by_cases hc : (c.id == e.contributionId) = true <;> simp [hc]
    · rw [h2]
      by_cases hc : (c.id == e.contributionId) = true <;> simp [hc]

/-- `applyEscrows` preserves already-recorded escrow id and sequence. -/
theorem applyEscrows_isSome_mono (es : List Db.ContributionEscrow) :
    ∀ c : Contribution, c.escrowId.isSome → c.escrowSequence.isSome →
    (applyEscrows es c).escrowId.isSome ∧ (applyEscrows es c).escrowSequence.isSome := by
  induction es with
  | nil =>
    intro c h1 h2
    exact ⟨h1, h2⟩
  | cons e es ih =>
    intro c h1 h2
    rw [applyEscrows_cons]
    by_cases hc : (c.id == e.contributionId) = true
    · rw [if_pos hc]
      exact ih _ rfl rfl
    · rw [if_neg hc]
      exact ih c h1 h2

/-- A row whose id is among the issued escrows ends with a recorded escrow id
and sequence. -/
theorem applyEscrows_isSome_of_mem (es : List Db.ContributionEscrow) :
    ∀ c : Contribution, c.id ∈ es.map (fun e => e.contributionId) →
    (applyEscrows es c).escrowId.isSome ∧ (applyEscrows es c).escrowSequence.isSome := by
  induction es with
  | nil =>
    intro c hc
    simp at hc
  | cons e es ih =>
    intro c hc
    rw [applyEscrows_cons]
    by_cases h : (c.id == e.contributionId) = true
    · rw [if_pos h]
      exact applyEscrows_isSome_mono es _ rfl rfl
    · rw [if_neg h]
      refine ih c ?_
      simp only [List.map_cons, List.mem_cons] at hc
      rcases hc with hc | hc
      · exact absurd (by simpa using hc) (by simpa using h)
      · exact hc

/-- Filtering a mapped list is mapping the list filtered through the
composed predicate. -/
theorem filter_of_map {α β : Type} (f : α → β) (p : β → Bool) :
    ∀ l : List α, (l.map f).filter p = (l.filter (fun a => p (f a))).map f := by
  intro l
  induction l with
  | nil => rfl
  | cons a l ih =>
    simp only [List.map_cons, List.filter_cons]
    by_cases h : p (f a) = true
    · simp [h, ih]
    · simp [h, ih]

/-- A balance-preserving pointwise map preserves the total balance. -/
theorem totalBalance_map_of_balance (f : User → User)
    (hf : ∀ u, (f u).currentXrpBalance = u.currentXrpBalance) :
    ∀ us : List User, totalBalance (us.map f) = totalBalance us := by
  intro us
  unfold totalBalance
  rw [List.map_map]
  congr 1
  refine List.map_congr_left ?_
  intro u _
  simp [hf]

/-- The accepted-counter bump on the developer row does not change any
balance, hence not the total. -/
theorem totalBalance_updateUsersByAddress (us : List User) (addr : String)
    (f : User → User) (hf : ∀ u, (f u).currentXrpBalance = u.currentXrpBalance) :
    totalBalance (updateUsersByAddress us addr f) = totalBalance us := by
  unfold updateUsersByAddress
  refine totalBalance_map_of_balance _ ?_ us
  intro u
  by_cases h : (u.xrpAddress == addr) = true <;> simp [h, hf]

/-- Updating a user id that does not occur leaves the table unchanged. -/
theorem updateUsers_not_mem (uid : Nat) (f : User → User) :
    ∀ us : List User, uid ∉ us.map (fun u => u.id) → updateUsers us uid f = us := by
  intro us
  induction us with
  | nil =>
    intro _
    rfl
  | cons u us ih =>
    intro h
    simp only [List.map_cons, List.mem_cons] at h
    push_neg at h
    obtain ⟨h1, h2⟩ := h
    unfold updateUsers
    simp only [List.map_cons]
    have hc : (u.id == uid) = false := by
      refine beq_eq_false_iff_ne.mpr ?_
      exact fun he => h1 he.symm
    rw [hc]
    simp only [Bool.false_eq_true, if_false]
    have := ih h2
    unfold updateUsers at this
    rw [this]

/-- Debiting one present user (unique by id) lowers the total balance by
exactly the debited amount. -/
theorem totalBalance_updateUsers_sub (uid : Nat) (a : Amount) :
    ∀ us : List User, (us.map (fun u => u.id)).Nodup →
    uid ∈ us.map (fun u => u.id) →
    totalBalance (updateUsers us uid (fun u =>
      { u with currentXrpBalance := u.currentXrpBalance - a })) = totalBalance us - a := by
  intro us
  induction us with
  | nil =>
    intro _ hmem
    simp at hmem
  | cons u us ih =>
    intro hnod hmem
    simp only [List.map_cons, List.nodup_cons] at hnod
    obtain ⟨hnotin, hnod2⟩ := hnod
    unfold updateUsers totalBalance
    simp only [List.map_cons, List.sum_cons]
    by_cases hc : (u.id == uid) = true
    · have huid : u.id = uid := by simpa using hc
      have htail : updateUsers us uid (fun u =>
          { u with currentXrpBalance := u.currentXrpBalance - a }) = us := by
        refine updateUsers_not_mem uid _ us ?_
        rw [← huid]
        exact hnotin
      unfold updateUsers at htail
      rw [if_pos hc, htail]
      show u.currentXrpBalance - a + (List.map (fun u => u.currentXrpBalance) us).sum =
        u.currentXrpBalance + (List.map (fun u => u.currentXrpBalance) us).sum - a
      ring
    · simp only [hc, Bool.false_eq_true, if_false]
      have hmem2 : uid ∈ us.map (fun u => u.id) := by
        simp only [List.map_cons, List.mem_cons] at hmem
        rcases hmem with hmem | hmem
        · exact absurd (by simpa using hmem.symm) (by simpa using hc)
        · exact hmem
      have := ih hnod2 hmem2
      unfold updateUsers totalBalance at this
      rw [this]
      ring

/-- The balance-deduction fold of `accept_bounty_multi` lowers the total
balance by exactly the sum of the deduction amounts, provided user ids are
unique and every debited id is present. -/
theorem totalBalance_foldl_deds :
    ∀ (ds : List Db.BalanceDeduction) (us : List User),
    (us.map (fun u => u.id)).Nodup →
    (∀ d ∈ ds, d.userId ∈ us.map (fun u => u.id)) →
    totalBalance (ds.foldl (fun us d => updateUsers us d.userId (fun u =>
      { u with currentXrpBalance := u.currentXrpBalance - d.amount })) us) =
      totalBalance us - (ds.map (fun d => d.amount)).sum := by
  intro ds
  induction ds with
  | nil =>
    intro us _ _
    simp
  | cons d ds ih =>
    intro us hnod hall
    simp only [List.foldl_cons]
    have hids : (updateUsers us d.userId (fun u =>
        { u with currentXrpBalance := u.currentXrpBalance - d.amount })).map
        (fun u => u.id) = us.map (fun u => u.id) :=
      updateUsers_map_id us d.userId _ (fun u => rfl)
    have htail := ih (updateUsers us d.userId (fun u =>
        { u with currentXrpBalance := u.currentXrpBalance - d.amount }))
      (by rw [hids]; exact hnod)
      (by intro d2 hd2; rw [hids]; exact hall d2 (List.mem_cons_of_mem d hd2))
    rw [htail, totalBalance_updateUsers_sub d.userId d.amount us hnod
      (hall d (List.mem_cons_self d ds))]
    simp only [List.map_cons, List.sum_cons]
    ring

/-- Pointwise effect of the balance-deduction fold on one user row: the row
keeps its id and loses exactly the sum of the deductions addressed to it. -/
theorem foldl_deds_user :
    ∀ (ds : List Db.BalanceDeduction) (us : List User) (u : User), u ∈ us →
    ∃ u1 ∈ ds.foldl (fun us d => updateUsers us d.userId (fun v =>
      { v with currentXrpBalance := v.currentXrpBalance - d.amount })) us,
      u1.id = u.id ∧ u1.currentXrpBalance = u.currentXrpBalance -
        ((ds.filter (fun d => d.userId == u.id)).map (fun d => d.amount)).sum := by
  intro ds
  induction ds with
  | nil =>
    intro us u hu
    exact ⟨u, hu, rfl, by simp⟩
  | cons d ds ih =>
    intro us u hu
    simp only [List.foldl_cons]
    have hu2 : (if u.id == d.userId then
        { u with currentXrpBalance := u.currentXrpBalance - d.amount } else u) ∈
        updateUsers us d.userId (fun v =>
          { v with currentXrpBalance := v.currentXrpBalance - d.amount }) := by
      unfold updateUsers
      exact List.mem_map_of_mem _ hu
    obtain ⟨u1, h1, hid, hbal⟩ := ih _ _ hu2
    by_cases hc : (u.id == d.userId) = true
    · rw [if_pos hc] at hid hbal
      refine ⟨u1, h1, hid, ?_⟩
      rw [hbal]
      have hd : (d.userId == u.id) = true := by
        simp only [beq_iff_eq] at hc ⊢
        exact hc.symm
      simp only [List.filter_cons, hd, if_true, List.map_cons, List.sum_cons]
      ring
    · rw [if_neg hc] at hid hbal
      refine ⟨u1, h1, hid, ?_⟩
      rw [hbal]
      have hd : (d.userId == u.id) = false := by
        refine beq_eq_false_iff_ne.mpr ?_
        intro he
        exact hc (by simp [he.symm])
      simp only [List.filter_cons, hd, Bool.false_eq_true, if_false]

/-- The accepted-counter bump keeps every row's id and balance. -/
theorem mem_updateUsersByAddress_bump (us : List User) (addr : String) (u : User)
    (hu : u ∈ us) :
    ∃ u2 ∈ updateUsersByAddress us addr
      (fun v => { v with bountiesAccepted := v.bountiesAccepted + 1 }),
      u2.id = u.id ∧ u2.currentXrpBalance = u.currentXrpBalance := by
  unfold updateUsersByAddress
  refine ⟨_, List.mem_map_of_mem _ hu, ?_, ?_⟩ <;>
    by_cases h : (u.xrpAddress == addr) = true <;> simp [h]

/-- C1: after a fully successful accept of a bounty whose pooled amount is
the sum of its contribution rows, the bounty's status is "accepted", every
contribution row of the bounty carries a recorded external escrow identifier
and sequence, the total of user balances drops by exactly the pooled amount,
and each user's balance drops by exactly the sum of that user's own pledges
to this bounty (their pledge, no more and no less). -/
theorem c1_accept_conservation (db : DB) (bountyId : Nat) (dev k : String)
    (env : AcceptEnv) (b : Bounty) (r : Contribution) (rs : List Contribution)
    (hb : findBounty db bountyId = some b)
    (hrows : contributionsByBounty db bountyId = r :: rs)
    (hpool : b.amount = sumAmounts (r :: rs))
    (hnod : (db.users.map (fun u => u.id)).Nodup)
    (hok : (Api.accept_bounty db bountyId dev env).result = .ok k) :
    (∃ b1, findBounty (Api.accept_bounty db bountyId dev env).db bountyId = some b1 ∧
      b1.status = "accepted") ∧
    (∀ c ∈ contributionsByBounty (Api.accept_bounty db bountyId dev env).db bountyId,
      c.escrowId.isSome ∧ c.escrowSequence.isSome) ∧
    totalBalance (Api.accept_bounty db bountyId dev env).db.users =
      totalBalance db.users - b.amount ∧
    (∀ u ∈ db.users, ∃ u1 ∈ (Api.accept_bounty db bountyId dev env).db.users,
      u1.id = u.id ∧ u1.currentXrpBalance = u.currentXrpBalance -
        sumAmounts ((r :: rs).filter (fun c => c.contributorId == u.id))) := by
  unfold Api.accept_bounty at hok ⊢
  rw [hb] at hok ⊢
  by_cases hst : b.status = "open"
  case neg =>
    have hst2 : (b.status != "open") = true := by simpa using hst
    simp only [hst2, if_true] at hok
    simp at hok
  have hst2 : (b.status != "open") = false := by simp [hst]
  simp only [hst2, Bool.false_eq_true, if_false] at hok ⊢
  have hrowsE : Api.legacyOrRows db bountyId b = .ok (r :: rs) := by
    unfold Api.legacyOrRows
    rw [hrows]
  simp only [hrowsE] at hok ⊢
  cases hval : validateContributions db env (r :: rs) with
  | error e =>
    rw [hval] at hok
    simp at hok
  | ok ps =>
    simp only [hval] at hok ⊢
    rcases hloop : escrowLoop env ps 0 with ⟨issued, deds, fail⟩
    cases fail with
    | some e =>
      rw [hloop] at hok
      simp at hok
    | none =>
      simp only [hloop] at hok ⊢
      obtain ⟨hmap, hall⟩ := validateContributions_ok_sound db env (r :: rs) ps hval
      obtain ⟨hids0, hdeds0⟩ := escrowLoop_none_spec env ps 0 (by rw [hloop])
      have hids : issued.map (fun e => e.contributionId) = ps.map (fun p => p.1.id) := by
        rw [hloop] at hids0
        exact hids0
      have hdeds : deds = ps.map (fun p => (⟨p.2.id, p.1.amount⟩ : Db.BalanceDeduction)) := by
        rw [hloop] at hdeds0
        exact hdeds0
      have hpostU : (Db.accept_bounty_multi db bountyId dev
          (issued.head?.map (fun e => e.escrowId))
          (issued.head?.map (fun e => e.escrowSequence))
          env.developerSecretKey env.conditionHex env.fulfillmentHex env.preimageHex
          issued deds).users =
          updateUsersByAddress (deds.foldl (fun us d => updateUsers us d.userId (fun u =>
            { u with currentXrpBalance := u.currentXrpBalance - d.amount })) db.users) dev
            (fun u => { u with bountiesAccepted := u.bountiesAccepted + 1 }) := rfl
      have hpostC : (Db.accept_bounty_multi db bountyId dev
          (issued.head?.map (fun e => e.escrowId))
          (issued.head?.map (fun e => e.escrowSequence))
          env.developerSecretKey env.conditionHex env.fulfillmentHex env.preimageHex
          issued deds).contributions =
          db.contributions.map (applyEscrows issued) :=
        contribFold_eq_map issued db.contributions
      refine ⟨⟨_, accept_multi_post db bountyId b dev _ _ _ _ _ _ _ _ hb, rfl⟩, ?_, ?_, ?_⟩
      · intro c hc
        unfold contributionsByBounty at hc
        rw [hpostC, filter_of_map] at hc
        obtain ⟨c0, hc0, rfl⟩ := List.mem_map.mp hc
        refine applyEscrows_isSome_of_mem issued c0 ?_
        have hc0b : c0 ∈ contributionsByBounty db bountyId := by
          unfold contributionsByBounty
          refine List.mem_filter.mpr ⟨List.mem_of_mem_filter hc0, ?_⟩
          rw [← (applyEscrows_id_bounty issued c0).2]
          exact (List.mem_filter.mp hc0).2
        rw [hids]
        rw [hrows, ← hmap] at hc0b
        obtain ⟨p, hp, hpe⟩ := List.mem_map.mp hc0b
        subst hpe
        exact List.mem_map.mpr ⟨p, hp, rfl⟩
      · have hdmem : ∀ d ∈ deds, d.userId ∈ db.users.map (fun u => u.id) := by
          intro d hd
          rw [hdeds] at hd
          obtain ⟨p, hp, rfl⟩ := List.mem_map.mp hd
          exact List.mem_map_of_mem _ (findUser_mem_id db p.1.contributorId p.2 (hall p hp).1).1
        have hsum : (deds.map (fun d => d.amount)).sum = b.amount := by
          rw [hdeds, List.map_map]
          have h1 : ps.map ((fun d => d.amount) ∘
              (fun p => (⟨p.2.id, p.1.amount⟩ : Db.BalanceDeduction)))
              = (ps.map Prod.fst).map (fun c => c.amount) := by
            rw [List.map_map]
            rfl
          rw [h1, hmap, hpool]
          rfl
        rw [hpostU, totalBalance_updateUsersByAddress _ _
          (fun u => { u with bountiesAccepted := u.bountiesAccepted + 1 })
          (fun u => rfl),
          totalBalance_foldl_deds deds db.users hnod hdmem, hsum]
      · intro u hu
        obtain ⟨u1, h1, hid1, hbal1⟩ := foldl_deds_user deds db.users u hu
        obtain ⟨u2, h2, hid2, hbal2⟩ := mem_updateUsersByAddress_bump
          (deds.foldl (fun us d => updateUsers us d.userId (fun v =>
            { v with currentXrpBalance := v.currentXrpBalance - d.amount })) db.users) dev u1 h1
        refine ⟨u2, ?_, hid2.trans hid1, ?_⟩
        · rw [hpostU]
          exact h2
        · rw [hbal2, hbal1]
          congr 1
          have hdeds2 : deds = (r :: rs).map
              (fun c => (⟨c.contributorId, c.amount⟩ : Db.BalanceDeduction)) := by
            rw [hdeds, ← hmap, List.map_map]
            refine List.map_congr_left ?_
            intro p hp
            have hpid := (findUser_mem_id db p.1.contributorId p.2 (hall p hp).1).2
            simp [Function.comp, hpid]
          rw [hdeds2, filter_of_map, List.map_map]
          rfl

/-- Witness for C1: accepting the boosted example bounty (alice 100, bob 50)
lowers the total of balances by exactly the pooled 150. -/
theorem c1_accept_conservation_witness :
    totalBalance (Api.accept_bounty exDbOpen 1 "rDEV" exAcceptEnvOk).db.users =
      totalBalance exDbOpen.users - 150 := by
  have h := c1_accept_conservation exDbOpen 1 "rDEV" "K1234" exAcceptEnvOk exOpenBounty
    exContrib1 [exContrib2] (by decide) (by decide) (by decide) (by decide) (by decide)
  exact h.2.2.1

/-- Characterization of the escrow loop on the first failure: when the
escrows before position `j` succeed and the one at `j` fails, the loop stops
there, having issued exactly one escrow per preceding contribution, and its
failure is the classified error of the failing contributor. -/
theorem escrowLoop_fail_spec (env : AcceptEnv) :
    ∀ (pre : List (Contribution × User)) (c : Contribution) (u : User)
      (post : List (Contribution × User)) (k : Nat) (m : String),
    (∀ i, i < pre.length → ∃ esc, env.createEscrow (k + i) = .ok esc) →
    env.createEscrow (k + pre.length) = .error m →
    (escrowLoop env (pre ++ (c, u) :: post) k).failure =
      some (classifyEscrowError u.username m) ∧
    (escrowLoop env (pre ++ (c, u) :: post) k).issued.map (fun e => e.contributionId) =
      pre.map (fun p => p.1.id) := by
  intro pre
  induction pre with
  | nil =>
    intro c u post k m _ hfail
    simp only [List.length_nil, Nat.add_zero] at hfail
    simp only [List.nil_append]
    unfold escrowLoop
    rw [hfail]
    exact ⟨rfl, rfl⟩
  | cons p pre ih =>
    intro c u post k m hsucc hfail
    obtain ⟨esc, hesc⟩ := hsucc 0 (Nat.succ_pos pre.length)
    rw [Nat.add_zero] at hesc
    obtain ⟨pc, pu⟩ := p
    simp only [List.cons_append]
    unfold escrowLoop
    rw [hesc]
    have hsucc2 : ∀ i, i < pre.length → ∃ esc, env.createEscrow (k + 1 + i) = .ok esc := by
      intro i hi
      have h2 := hsucc (i + 1) (by simpa using Nat.succ_lt_succ hi)
      have he : k + (i + 1) = k + 1 + i := by omega
      rw [he] at h2
      exact h2
    have hfail2 : env.createEscrow (k + 1 + pre.length) = .error m := by
      have he : k + ((pc, pu) :: pre).length = k + 1 + pre.length := by
        simp only [List.length_cons]
        omega
      rw [he] at hfail
      exact hfail
    obtain ⟨h1, h2⟩ := ih c u post (k + 1) m hsucc2 hfail2
    exact ⟨h1, by simp [h2]⟩

/-- C4 (amended): on an escrow-creation failure during accept the loop stops
at the failing contribution having issued one ledger escrow per preceding
contribution; those already-issued escrows are not recorded locally — the
database is left unchanged on every error — and the surfaced error is the
generic classified message for the failing contributor alone. -/
theorem c4_failure_not_recorded :
    (∀ (db : DB) (bountyId : Nat) (dev : String) (env : AcceptEnv) (e : ApiError),
      (Api.accept_bounty db bountyId dev env).result = .error e →
      (Api.accept_bounty db bountyId dev env).db = db) ∧
    (∀ (env : AcceptEnv) (pre : List (Contribution × User)) (c : Contribution)
      (u : User) (post : List (Contribution × User)) (m : String),
      (∀ i, i < pre.length → ∃ esc, env.createEscrow i = .ok esc) →
      env.createEscrow pre.length = .error m →
      (escrowLoop env (pre ++ (c, u) :: post) 0).failure =
        some (classifyEscrowError u.username m) ∧
      (escrowLoop env (pre ++ (c, u) :: post) 0).issued.map (fun e => e.contributionId) =
        pre.map (fun p => p.1.id)) ∧
    (∀ (db : DB) (bountyId : Nat) (dev : String) (env : AcceptEnv) (b : Bounty)
      (rows : List Contribution) (ps : List (Contribution × User)) (e : ApiError),
      findBounty db bountyId = some b →
      b.status = "open" →
      Api.legacyOrRows db bountyId b = .ok rows →
      validateContributions db env rows = .ok ps →
      (escrowLoop env ps 0).failure = some e →
      (Api.accept_bounty db bountyId dev env).result = .error e ∧
      (Api.accept_bounty db bountyId dev env).db = db ∧
      (Api.accept_bounty db bountyId dev env).createdEscrows =
        (escrowLoop env ps 0).issued) := by
  refine ⟨?_, ?_, ?_⟩
  · intro db bountyId dev env e h
    unfold Api.accept_bounty at h ⊢
    cases hfb : findBounty db bountyId with
    | none => simp [hfb]
    | some b =>
      simp only [hfb] at h ⊢
      by_cases hst : (b.status != "open") = true
      · simp [hst]
      · have hst2 : (b.status != "open") = false := by simpa using hst
        simp only [hst2, Bool.false_eq_true, if_false] at h ⊢
        cases hrows : Api.legacyOrRows db bountyId b with
        | error e2 => simp [hrows]
        | ok contributions =>
          simp only [hrows] at h ⊢
          cases hval : validateContributions db env contributions with
          | error e2 => simp [hval]
          | ok ps =>
            simp only [hval] at h ⊢
            rcases hloop : escrowLoop env ps 0 with ⟨issued, deds, fail⟩
            cases fail with
            | some e2 => simp [hloop]
            | none =>
              simp only [hloop] at h
              simp at h
  · intro env pre c u post m hsucc hfail
    refine escrowLoop_fail_spec env pre c u post 0 m ?_ ?_
    · intro i hi
      rw [Nat.zero_add]
      exact hsucc i hi
    · rw [Nat.zero_add]
      exact hfail
  · intro db bountyId dev env b rows ps e hb hst hrowsE hval hfail
    unfold Api.accept_bounty
    rw [hb]
    have hst2 : (b.status != "open") = false := by simp [hst]
    simp only [hst2, Bool.false_eq_true, if_false, hrowsE, hval]
    rcases hloop : escrowLoop env ps 0 with ⟨issued, deds, fail⟩
    rw [hloop] at hfail
    have hfe : fail = some e := hfail
    subst hfe
    exact ⟨rfl, rfl, rfl⟩

/-- Counterexample to C4 as stated: with the boosted example bounty and an
environment whose second escrow creation fails, the first escrow was issued
on the ledger, yet no identifier is recorded (the database is unchanged and
every contribution row still has no escrow id), and the surfaced error is a
generic 500 naming only the failed contributor, not the succeeded ones. -/
theorem c4_counterexample :
    (Api.accept_bounty exDbOpen 1 "rDEV" exAcceptEnvFail2).createdEscrows =
      [⟨1, "H0", 10⟩] ∧
    (Api.accept_bounty exDbOpen 1 "rDEV" exAcceptEnvFail2).db = exDbOpen ∧
    (Api.accept_bounty exDbOpen 1 "rDEV" exAcceptEnvFail2).result =
      .error ⟨500, "Escrow creation failed for bob: boom"⟩ ∧
    ((Api.accept_bounty exDbOpen 1 "rDEV" exAcceptEnvFail2).db.contributions.all
      (fun c => c.escrowId == none)) = true := by
  decide

/-- Witness for C4 (amended): the failing accept on the example database
leaves it unchanged. -/
theorem c4_failure_not_recorded_witness :
    (Api.accept_bounty exDbOpen 1 "rDEV" exAcceptEnvFail2).db = exDbOpen :=
  c4_failure_not_recorded.1 exDbOpen 1 "rDEV" exAcceptEnvFail2
    ⟨500, "Escrow creation failed for bob: boom"⟩ (by decide)

/-- A balance-preserving address-keyed update keeps the balance column. -/
theorem map_balance_updateUsersByAddress (us : List User) (addr : String)
    (f : User → User) (hf : ∀ u, (f u).currentXrpBalance = u.currentXrpBalance) :
    (updateUsersByAddress us addr f).map (fun u => u.currentXrpBalance) =
      us.map (fun u => u.currentXrpBalance) := by
  unfold updateUsersByAddress
  rw [List.map_map]
  refine List.map_congr_left ?_
  intro u _
  by_cases h : u.xrpAddress = addr <;> simp [h, hf]

/-- C5 (amended): a claim can only fully succeed when no escrow finish is
ever attempted — both `finish_conditional_escrow` call sites omit the
required `condition_hex` argument, so an attempted finish raises `TypeError`
and the endpoint fails with the generic mapped error, committing nothing.
A successful claim therefore finishes zero escrows and commits exactly the
`db.claim_bounty` transaction, which sets the status to "claimed", changes
no account balance at all, and credits the bounty's full nominal pooled
amount (not the zero actually finished) to the lifetime-earned counter of
the rows matching a nonempty recorded developer address. -/
theorem c5_claim_full_amount_no_balance :
    (∀ (db : DB) (bountyId : Nat) (url : String) (env : Api.ClaimEnv),
      (Api.claim_bounty db bountyId url env).result = .ok () →
      contributionsByBounty db bountyId ≠ [] ∧
      Api.finishAttempt db (contributionsByBounty db bountyId) = false ∧
      (Api.claim_bounty db bountyId url env).finishCalls = [] ∧
      Db.claim_bounty db bountyId = .ok (Api.claim_bounty db bountyId url env).db) ∧
    (∀ (db : DB) (bountyId : Nat) (url : String) (env : Api.ClaimEnv) (b : Bounty)
      (r : Contribution) (rs : List Contribution) (n sk ff : String),
      findBounty db bountyId = some b →
      b.status = "accepted" →
      contributionsByBounty db bountyId = r :: rs →
      Api.finishAttempt db (r :: rs) = true →
      extract_issue_number_from_url b.githubIssueUrl = some n →
      Db.get_developer_secret_key db bountyId = some sk →
      verify_merge_request_contains_issue env.pr n (some sk) = true →
      b.escrowFulfillment = some ff →
      (ff == "") = false →
      (Api.claim_bounty db bountyId url env).result =
        .error (Api.mapFinishError Api.finishTypeError) ∧
      (Api.claim_bounty db bountyId url env).db = db) ∧
    (∀ (db db1 : DB) (bountyId : Nat) (b : Bounty),
      findBounty db bountyId = some b →
      Db.claim_bounty db bountyId = .ok db1 →
      findBounty db1 bountyId = some { b with status := "claimed" } ∧
      db1.users.map (fun u => u.currentXrpBalance) =
        db.users.map (fun u => u.currentXrpBalance) ∧
      ∀ addr, b.developerAddress = some addr → (addr == "") = false →
        db1.users = updateUsersByAddress db.users addr (fun u =>
          { u with totalXrpEarned := u.totalXrpEarned + b.amount })) := by
  refine ⟨?_, ?_, ?_⟩
  · intro db bountyId url env h
    unfold Api.claim_bounty at h ⊢
    cases hv : Db.get_bounty_by_id db bountyId with
    | none => simp only [hv] at h; simp at h
    | some bv =>
      simp only [hv] at h ⊢
      by_cases hstat : (bv.status != "accepted") = true
      · simp only [hstat, if_true] at h
        simp at h
      · have hstat2 : (bv.status != "accepted") = false := by simpa using hstat
        simp only [hstat2, Bool.false_eq_true, if_false] at h ⊢
        cases hex : extract_issue_number_from_url bv.githubIssueUrl with
        | none => simp only [hex] at h; simp at h
        | some issueNumber =>
          simp only [hex] at h ⊢
          cases hsk : Db.get_developer_secret_key db bountyId with
          | none => simp only [hsk] at h; simp at h
          | some storedKey =>
            simp only [hsk] at h ⊢
            by_cases hver : (!verify_merge_request_contains_issue env.pr issueNumber
                (some storedKey)) = true
            · simp only [hver, if_true] at h
              simp at h
            · have hver2 : (!verify_merge_request_contains_issue env.pr issueNumber
                  (some storedKey)) = false := by simpa using hver
              simp only [hver2, Bool.false_eq_true, if_false] at h ⊢
              cases hint : findBounty db bountyId with
              | none => simp only [hint] at h; simp at h
              | some internal =>
                simp only [hint] at h ⊢
                cases hff : internal.escrowFulfillment with
                | none => simp only [hff] at h; simp at h
                | some ff =>
                  simp only [hff] at h ⊢
                  by_cases hffe : (ff == "") = true
                  · simp only [hffe, if_true] at h
                    simp at h
                  · have hffe2 : (ff == "") = false := by simpa using hffe
                    simp only [hffe2, Bool.false_eq_true, if_false] at h ⊢
                    cases hrows : contributionsByBounty db bountyId with
                    | nil =>
                      simp only [hrows] at h
                      cases hfund : findUser db bv.funderId with
                      | none => simp only [hfund] at h; simp at h
                      | some funder => simp only [hfund] at h; simp at h
                    | cons r rs =>
                      simp only [hrows] at h ⊢
                      by_cases hatt : Api.finishAttempt db (r :: rs) = true
                      · simp only [hatt, if_true] at h
                        simp at h
                      · have hatt2 : Api.finishAttempt db (r :: rs) = false := by
                          simpa using hatt
                        simp only [hatt2, Bool.false_eq_true, if_false] at h ⊢
                        cases hclaim : Db.claim_bounty db bountyId with
                        | error m => simp only [hclaim] at h; simp at h
                        | ok db1 =>
                          simp only [hclaim]
                          simp [hrows, hatt2]
  · intro db bountyId url env b r rs n sk ff hb hst hrows hatt hex hsk hver hff hffne
    have hv : Db.get_bounty_by_id db bountyId = some (Db.map_bounty_row b) := by
      unfold Db.get_bounty_by_id
      rw [hb]
      rfl
    unfold Api.claim_bounty
    rw [hv]
    dsimp only [Db.map_bounty_row]
    rw [hst, hex, hsk]
    simp [hver, hb, hff, hffne, hrows, hatt]
  · intro db db1 bountyId b hb hok
    have hpost := claim_bounty_post db db1 bountyId b hb hok
    refine ⟨hpost, ?_, ?_⟩
    · unfold Db.claim_bounty at hok
      rw [hb] at hok
      simp only [Except.ok.injEq] at hok
      subst hok
      cases hda : b.developerAddress with
      | none => simp only [hda]
      | some addr =>
        simp only [hda]
        by_cases he : (addr == "") = true
        · rw [if_pos he]
        · rw [if_neg he]
          exact map_balance_updateUsersByAddress db.users addr _ (fun u => rfl)
    · intro addr haddr hne
      unfold Db.claim_bounty at hok
      rw [hb] at hok
      simp only [Except.ok.injEq] at hok
      subst hok
      simp only [haddr]
      rw [if_neg (by simp [hne])]

/-- Counterexample to C5 as stated: on the accepted example bounty with both
contributors lacking seeds, the claim fully succeeds while attempting and
finishing zero escrows (no finish call at all), yet the worker's
lifetime-earned counter is credited the full pooled 150 — not the sum of
finished contributions, which is 0 — and no account balance increases. -/
theorem c5_counterexample :
    (Api.claim_bounty exDbSkipAll 1 "u" exClaimEnvOk).result = .ok () ∧
    (Api.claim_bounty exDbSkipAll 1 "u" exClaimEnvOk).finishCalls = [] ∧
    Api.finishAttempt exDbSkipAll (contributionsByBounty exDbSkipAll 1) = false ∧
    findUser (Api.claim_bounty exDbSkipAll 1 "u" exClaimEnvOk).db 3 =
      some { exCarol with bountiesAccepted := 1, totalXrpEarned := 150 } ∧
    (Api.claim_bounty exDbSkipAll 1 "u" exClaimEnvOk).db.users.map
      (fun u => u.currentXrpBalance) =
      exDbSkipAll.users.map (fun u => u.currentXrpBalance) := by
  decide

/-- Witness for C5 (amended): the successful example claim commits exactly
the `db.claim_bounty` transaction. -/
theorem c5_claim_full_amount_no_balance_witness :
    Db.claim_bounty exDbSkipAll 1 =
      .ok (Api.claim_bounty exDbSkipAll 1 "u" exClaimEnvOk).db :=
  (c5_claim_full_amount_no_balance.1 exDbSkipAll 1 "u" exClaimEnvOk (by decide)).2.2.2

/-- A balance-preserving id-keyed update keeps the balance column. -/
theorem map_balance_updateUsers (us : List User) (userId : Nat)
    (f : User → User) (hf : ∀ u, (f u).currentXrpBalance = u.currentXrpBalance) :
    (updateUsers us userId f).map (fun u => u.currentXrpBalance) =
      us.map (fun u => u.currentXrpBalance) := by
  unfold updateUsers
  rw [List.map_map]
  refine List.map_congr_left ?_
  intro u _
  by_cases h : u.id = userId <;> simp [h, hf]

/-- Keeping only the rows of other bounties leaves no row of this bounty. -/
theorem filter_ne_then_eq (bid : Nat) :
    ∀ l : List Contribution,
    (l.filter (fun c => c.bountyId != bid)).filter (fun c => c.bountyId == bid) = [] := by
  intro l
  induction l with
  | nil => rfl
  | cons c l ih =>
    simp only [List.filter_cons]
    by_cases h : c.bountyId = bid
    · simp [h, ih]
    · simp [h, ih]

/-- The create endpoint never changes any account balance. -/
theorem create_bounty_balances (db : DB) (fid : Nat) (n d g : String)
    (a : Amount) (t : Nat) :
    (Api.create_bounty db fid n d g a t).1.users.map (fun u => u.currentXrpBalance) =
      db.users.map (fun u => u.currentXrpBalance) := by
  unfold Api.create_bounty
  cases hfu : findUser db fid with
  | none => simp [hfu]
  | some u =>
    simp only [hfu]
    by_cases hbal : u.currentXrpBalance < a
    · rw [if_pos hbal]
    · rw [if_neg hbal]
      rcases hd : Db.create_bounty db fid n d g u.xrpAddress a t with m | ⟨db1, bid⟩
      · simp [hd]
      · simp only [hd]
        unfold Db.create_bounty at hd
        simp only [hfu] at hd
        rw [if_neg hbal] at hd
        simp only [Except.ok.injEq, Prod.mk.injEq] at hd
        obtain ⟨hdb1, -⟩ := hd
        subst hdb1
        exact map_balance_updateUsers db.users fid _ (fun u => rfl)

/-- The boost endpoint never changes any account balance. -/
theorem boost_bounty_balances (db : DB) (bountyId contributorId : Nat) (a : Amount) :
    (Api.boost_bounty db bountyId contributorId a).1.users.map
      (fun u => u.currentXrpBalance) = db.users.map (fun u => u.currentXrpBalance) := by
  unfold Api.boost_bounty
  cases hv : Db.get_bounty_by_id db bountyId with
  | none => simp [hv]
  | some bv =>
    simp only [hv]
    by_cases hstat : (bv.status != "open") = true
    · simp [hstat]
    · have hstat2 : (bv.status != "open") = false := by simpa using hstat
      simp only [hstat2, Bool.false_eq_true, if_false]
      by_cases hcr : (contributorId == bv.funderId) = true
      · simp [hcr]
      · have hcr2 : (contributorId == bv.funderId) = false := by simpa using hcr
        simp only [hcr2, Bool.false_eq_true, if_false]
        by_cases hle : a ≤ 0
        · rw [if_pos hle]
        · rw [if_neg hle]
          cases hfu : findUser db contributorId with
          | none => simp [hfu]
          | some u =>
            simp only [hfu]
            by_cases hbal : u.currentXrpBalance < a
            · rw [if_pos hbal]
            · rw [if_neg hbal]
              rcases hd : Db.add_contribution db bountyId contributorId a with m | ⟨db1, cid⟩
              · simp [hd]
              · simp only [hd]
                cases hfb : findBounty db bountyId with
                | none =>
                  exfalso
                  unfold Db.get_bounty_by_id at hv
                  rw [hfb] at hv
                  simp at hv
                | some b =>
                  have hbv : Db.map_bounty_row b = bv := by
                    unfold Db.get_bounty_by_id at hv
                    rw [hfb] at hv
                    simpa using hv
                  have hbstat : (b.status != "open") = false := by
                    rw [← hbv] at hstat2
                    exact hstat2
                  unfold Db.add_contribution at hd
                  simp only [hfb, hbstat, Bool.false_eq_true, if_false, hfu] at hd
                  rw [if_neg hle, if_neg hbal] at hd
                  simp only [Except.ok.injEq, Prod.mk.injEq] at hd
                  obtain ⟨hdb1, -⟩ := hd
                  subst hdb1
                  exact map_balance_updateUsers db.users contributorId _ (fun u => rfl)

/-- Effects of a successful `db.cancel_bounty` transaction: it only fires on
an open bounty, marks it cancelled, deletes its contribution rows, rolls the
funder's funded total back by the full pooled amount (and the created count
by one), and touches no balance. -/
theorem cancel_db_effects (db db1 : DB) (bountyId : Nat) (done : Bool) (b : Bounty)
    (hb : findBounty db bountyId = some b)
    (hok : Db.cancel_bounty db bountyId = .ok (db1, done)) :
    b.status = "open" ∧
    findBounty db1 bountyId = some { b with status := "cancelled" } ∧
    contributionsByBounty db1 bountyId = [] ∧
    db1.users = updateUsers db.users b.funderId (fun u =>
      { u with totalXrpFunded := u.totalXrpFunded - b.amount,
               bountiesCreated := u.bountiesCreated - 1 }) ∧
    db1.users.map (fun u => u.currentXrpBalance) =
      db.users.map (fun u => u.currentXrpBalance) := by
  obtain ⟨hopen, hfind1⟩ := cancel_bounty_post db db1 bountyId done b hb hok
  refine ⟨hopen, hfind1, ?_⟩
  unfold Db.cancel_bounty at hok
  rw [hb] at hok
  have h2 : (b.status != "open") = false := by simp [hopen]
  simp only [h2, Bool.false_eq_true, if_false] at hok
  simp only [Except.ok.injEq, Prod.mk.injEq] at hok
  obtain ⟨hdb1, -⟩ := hok
  subst hdb1
  refine ⟨?_, rfl, ?_⟩
  · unfold contributionsByBounty
    exact filter_ne_then_eq bountyId db.contributions
  · exact map_balance_updateUsers db.users b.funderId _ (fun u => rfl)

/-- The cancel endpoint (cancel transaction then delete transaction) never
changes any account balance. -/
theorem cancel_bounty_balances (db : DB) (bountyId : Nat) :
    (Api.cancel_bounty db bountyId).1.users.map (fun u => u.currentXrpBalance) =
      db.users.map (fun u => u.currentXrpBalance) := by
  unfold Api.cancel_bounty
  rcases hc : Db.cancel_bounty db bountyId with m | ⟨db1, success⟩
  · simp [hc]
  · simp only [hc]
    have hb : ∃ b, findBounty db bountyId = some b := by
      unfold Db.cancel_bounty at hc
      cases hfb : findBounty db bountyId with
      | none => rw [hfb] at hc; simp at hc
      | some b => exact ⟨b, rfl⟩
    obtain ⟨b, hfb⟩ := hb
    obtain ⟨hopen, hfind1, hrows1, husers1, hbal1⟩ :=
      cancel_db_effects db db1 bountyId success b hfb hc
    by_cases hs : (!success) = true
    · simp only [hs, if_true]
      exact hbal1
    · have hs2 : (!success) = false := by simpa using hs
      simp only [hs2, Bool.false_eq_true, if_false]
      rcases hd : Db.delete_bounty db1 bountyId with m | db2
      · simp only [hd]
        exact hbal1
      · simp only [hd]
        unfold Db.delete_bounty at hd
        rw [hfind1] at hd
        have hso : ((({ b with status := "cancelled" } : Bounty)).status == "open") = false := rfl
        simp only [hso, Bool.false_eq_true, if_false] at hd
        simp only [Except.ok.injEq] at hd
        subst hd
        exact hbal1

/-- C8 (amended): cancel succeeds only while the bounty is "open"; on
cancellation the bounty becomes "cancelled", all its contribution rows are
deleted, the funder's created count drops by one and the funder's funded
total drops by the bounty's full pooled amount — including boosts pledged by
other users, so it does not return to its pre-open value on a boosted bounty
— and no account balance is changed by create, boost or cancel. -/
theorem c8_cancel_full_pool_reversal :
    (∀ (db : DB) (bountyId : Nat) (b : Bounty),
      findBounty db bountyId = some b → ¬b.status = "open" →
      Db.cancel_bounty db bountyId = .error "Can only cancel open bounties") ∧
    (∀ (db db1 : DB) (bountyId : Nat) (done : Bool) (b : Bounty),
      findBounty db bountyId = some b →
      Db.cancel_bounty db bountyId = .ok (db1, done) →
      b.status = "open" ∧
      findBounty db1 bountyId = some { b with status := "cancelled" } ∧
      contributionsByBounty db1 bountyId = [] ∧
      db1.users = updateUsers db.users b.funderId (fun u =>
        { u with totalXrpFunded := u.totalXrpFunded - b.amount,
                 bountiesCreated := u.bountiesCreated - 1 })) ∧
    (∀ (db : DB) (fid : Nat) (n d g : String) (a : Amount) (t : Nat),
      (Api.create_bounty db fid n d g a t).1.users.map (fun u => u.currentXrpBalance) =
        db.users.map (fun u => u.currentXrpBalance)) ∧
    (∀ (db : DB) (bountyId contributorId : Nat) (a : Amount),
      (Api.boost_bounty db bountyId contributorId a).1.users.map
        (fun u => u.currentXrpBalance) = db.users.map (fun u => u.currentXrpBalance)) ∧
    (∀ (db : DB) (bountyId : Nat),
      (Api.cancel_bounty db bountyId).1.users.map (fun u => u.currentXrpBalance) =
        db.users.map (fun u => u.currentXrpBalance)) := by
  refine ⟨?_, ?_, create_bounty_balances, boost_bounty_balances, cancel_bounty_balances⟩
  · intro db bountyId b hb hst
    unfold Db.cancel_bounty
    rw [hb]
    have h2 : (b.status != "open") = true := by simpa using hst
    simp [h2]
  · intro db db1 bountyId done b hb hok
    obtain ⟨h1, h2, h3, h4, -⟩ := cancel_db_effects db db1 bountyId done b hb hok
    exact ⟨h1, h2, h3, h4⟩

/-- Counterexample to C8 as stated: alice creates a 100-unit bounty (funded
total 0 → 100), bob boosts it by 50, and alice cancels; the cancel succeeds
but subtracts the full pooled 150, leaving alice's funded total at -50, not
at its pre-open value 0 (and bob's pledge of 50 is never reverted). -/
theorem c8_counterexample :
    (Api.create_bounty exDb0 1 "t" "d" "https://github.com/o/r/issues/5" 100 3600).2 =
      .ok 1 ∧
    (Api.boost_bounty exDbCreated 1 2 50).2 = .ok 2 ∧
    (Api.cancel_bounty exDbBoosted 1).2 = .ok () ∧
    (findUser exDb0 1).map (fun u => u.totalXrpFunded) = some 0 ∧
    (findUser exDbCancelled 1).map (fun u => u.totalXrpFunded) = some (-50) ∧
    (findUser exDbCancelled 2).map (fun u => u.totalXrpFunded) = some 50 := by
  decide

/-- Witness for C8 (amended): cancelling the already-accepted example bounty
is rejected. -/
theorem c8_cancel_full_pool_reversal_witness :
    Db.cancel_bounty exDbAccepted 1 = .error "Can only cancel open bounties" :=
  c8_cancel_full_pool_reversal.1 exDbAccepted 1 exAcceptedBounty (by decide) (by decide)

end BountyX
